import Mathlib

/-!
Verification development for the deno_tui incremental rendering core.

The TypeScript sources embedded here:
* `TextObject` (`updateMovement`, `update`, `render`, `rerender`) — src/unnamed/part_001
* `BoxObject.rerender` — src/unnamed/part_002
* `createComponent` / `removeComponent` and the module-global component id
  counter — src/unnamed/part_000

JavaScript sparse arrays of `Set`s (`rerenderCells`, `omitCells`,
`rerenderQueue`) are embedded as `RowSets`: a finite domain of rows whose
entry (a JS `Set` of columns) is present, together with the per-row set of
columns.  `Set.prototype.clear` empties the set but keeps the array slot, so
clearing keeps the row in the domain.  The frame buffer is a total function
`Int → Int → Option String` (`none` = never written), since JS arrays accept
arbitrary integer indices (negative indices become plain properties).
-/

/-- `Rectangle` from types.ts: `{column, row, width, height}`. -/
structure Rectangle where
  column : Int
  row : Int
  width : Int
  height : Int
  deriving DecidableEq

/-- Modelled from the spec: `rectangle != previous_rectangle` (§4.3 movement
handling) — equality of rectangles is field-wise equality.  The helper
`rectangleEquals` lives in utils/numbers.ts, which is not among the sources. -/
def rectangleEquals (a b : Rectangle) : Bool :=
  a.column == b.column && a.row == b.row && a.width == b.width && a.height == b.height

/-- Modelled from the spec: membership of a cell in a rectangle (a cell of a
rectangle has `column ≤ c < column + width` and `row ≤ r < row + height`).
The helper `fitsInRectangle` lives in utils/numbers.ts, which is not among
the sources. -/
def fitsInRectangle (c r : Int) (rect : Rectangle) : Bool :=
  rect.column ≤ c && c < rect.column + rect.width &&
  rect.row ≤ r && r < rect.row + rect.height

/-- Modelled from the spec: "compute the geometric intersection of old and new
rectangles" (§4.3).  The helper `rectangleIntersection` lives in
utils/numbers.ts, which is not among the sources; it returns the intersection
rectangle when the two rectangles overlap and nothing otherwise. -/
def rectangleIntersection (a b : Rectangle) : Option Rectangle :=
  if min (a.column + a.width) (b.column + b.width) - max a.column b.column ≤ 0 ∨
      min (a.row + a.height) (b.row + b.height) - max a.row b.row ≤ 0 then
    none
  else
    some ⟨max a.column b.column, max a.row b.row,
      min (a.column + a.width) (b.column + b.width) - max a.column b.column,
      min (a.row + a.height) (b.row + b.height) - max a.row b.row⟩

/-- `intersection && fitsInRectangle(c, r, intersection)` with a possibly
absent intersection. -/
def interHas (inter : Option Rectangle) (c r : Int) : Bool :=
  match inter with
  | none => false
  | some i => fitsInRectangle c r i

/-- A JS sparse array of `Set`s of columns: `dom` is the set of rows whose
slot holds a `Set`, `val r` is that set's contents (meaningful only when
`r ∈ dom`). -/
structure RowSets where
  dom : Finset Int
  val : Int → Finset Int

namespace RowSets

/-- The empty array: no slots. -/
def empty : RowSets := ⟨∅, fun _ => ∅⟩

/-- `arr[r]` as an optional set. -/
def get (s : RowSets) (r : Int) : Option (Finset Int) :=
  if r ∈ s.dom then some (s.val r) else none

/-- The columns stored at row `r` (`∅` when the slot is absent). -/
def cells (s : RowSets) (r : Int) : Finset Int :=
  if r ∈ s.dom then s.val r else ∅

/-- `(arr[r] ??= new Set()).add(c)` — the one write operation used by
`queueRerender` and the rerender queue. -/
def add (s : RowSets) (r c : Int) : RowSets :=
  if r ∈ s.dom then
    ⟨s.dom, fun r2 => if r2 = r then insert c (s.val r2) else s.val r2⟩
  else
    ⟨insert r s.dom, fun r2 => if r2 = r then {c} else s.val r2⟩

/-- `arr[r] ??= new Set()` without adding anything. -/
def ensure (s : RowSets) (r : Int) : RowSets :=
  if r ∈ s.dom then s else ⟨insert r s.dom, fun r2 => if r2 = r then ∅ else s.val r2⟩

/-- `arr[r]?.clear()` — empties the set when present, keeps the slot. -/
def clearRow (s : RowSets) (r : Int) : RowSets :=
  if r ∈ s.dom then ⟨s.dom, fun r2 => if r2 = r then ∅ else s.val r2⟩ else s

/-- JS `array.length`: one past the largest non-negative occupied index
(negative indices are plain properties and do not count). -/
def len (s : RowSets) : Int :=
  s.dom.fold max 0 (fun r => if 0 ≤ r then r + 1 else 0)

end RowSets

/-- The integers `a, a+1, …, b-1` (a JS `for (let i = a; i < b; ++i)` loop
range). -/
def intRange (a b : Int) : List Int :=
  (List.range (b - a).toNat).map (fun i : Nat => a + (i : Int))

/-- Insert an integer into a sorted list, keeping it sorted. -/
def sortedInsert (a : Int) : List Int → List Int
  | [] => [a]
  | b :: l => if a ≤ b then a :: b :: l else b :: sortedInsert a l

instance : LeftCommutative sortedInsert := by
  constructor
  intro a b l
  induction l with
  | nil =>
    by_cases h1 : a ≤ b
    · by_cases h2 : b ≤ a
      · have hab : a = b := le_antisymm h1 h2
        subst hab
        rfl
      · simp only [sortedInsert, if_pos h1, if_neg h2]
    · have h2 : b ≤ a := by omega
      simp only [sortedInsert, if_neg h1, if_pos h2]
  | cons c l ih =>
    by_cases hb : b ≤ c
    · by_cases ha : a ≤ c
      · by_cases hab : a ≤ b
        · by_cases hba : b ≤ a
          · have heq : a = b := le_antisymm hab hba
            subst heq
            rfl
          · simp only [sortedInsert, if_pos hb, if_pos ha, if_pos hab, if_neg hba]
        · have hba : b ≤ a := by omega
          simp only [sortedInsert, if_pos hb, if_pos ha, if_neg hab, if_pos hba]
      · have hab : ¬ a ≤ b := by omega
        simp only [sortedInsert, if_pos hb, if_neg ha, if_neg hab]
    · by_cases ha : a ≤ c
      · have hba : ¬ b ≤ a := by omega
        simp only [sortedInsert, if_neg hb, if_pos ha, if_neg hba]
      · simp only [sortedInsert, if_neg hb, if_neg ha]
        rw [ih]

/-- Enumerate a set of columns in ascending order.  A JS `Set` iterates in
insertion order, which this embedding does not track; since each loop
iteration touches a distinct column, the visiting order does not affect the
resulting state, and an ascending enumeration is used.  (Unlike
`Finset.sort`, this insertion sort reduces inside the kernel.) -/
def sortedCols (s : Finset Int) : List Int :=
  Multiset.foldr sortedInsert [] s.val

/-- The terminal canvas: size, frame buffer and the per-row rerender queue
(canvas.ts is not among the sources; this is the state visible to the
drawing code, as the spec's Frame Buffer describes it). -/
structure Canvas where
  rows : Int
  columns : Int
  frameBuffer : Int → Int → Option String
  rerenderQueue : RowSets

/-- `rowBuffer[column] = v` at row `r`. -/
def writeCell (fb : Int → Int → Option String) (r c : Int) (v : String) :
    Int → Int → Option String :=
  fun r2 c2 => if r2 = r ∧ c2 = c then some v else fb r2 c2

/-- `omitColumns?.size === rectangle.width` (`undefined === w` is false). -/
def optSizeEq (om : Option (Finset Int)) (w : Int) : Bool :=
  match om with
  | none => false
  | some s => (s.card : Int) == w

/-- Modelled from the spec: `textWidth` (utils/strings.ts, not among the
sources) gives the on-screen width of the value; the spec's data model
describes one cell per character, so the width is the character count. -/
def textWidth (value : List Char) : Int := value.length

/-- JS string indexing: `value[i]` is the character, or `undefined` past the
end (and for a negative index). -/
def charAtI (value : List Char) (i : Int) : Option Char :=
  if h : 0 ≤ i ∧ i.toNat < value.length then some (value.get ⟨i.toNat, h.2⟩) else none

/-- The state of a `TextObject` (src/unnamed/part_001) that the rendering
methods read and write.  `style` takes an `Option Char` because JS string
indexing past the end yields `undefined`, which is passed to the style
function as-is.  `objectsUnder` keeps, for each object known to render
beneath this one, its `rerenderCells` (the only part of such an object that
`updateMovement` touches, through `queueRerender`). -/
structure TextObject where
  value : List Char
  previousValue : List Char
  rectangle : Rectangle
  previousRectangle : Option Rectangle
  rendered : Bool
  style : Option Char → String
  rerenderCells : RowSets
  omitCells : RowSets
  objectsUnder : List RowSets

namespace TextObject

/-- One iteration of the first `updateMovement` loop (old rectangle's row):
skip cells in the intersection, otherwise `objectUnder.queueRerender(r, c)`
for every object underneath.  `queueRerender` (draw_object.ts, not among the
sources) is modelled from the spec: "notify all objects in its objects
underneath set to queue a rerender there" — it adds the cell to the object's
`rerenderCells`. -/
def underStep (inter : Option Rectangle) (r : Int) (unders : List RowSets) (c : Int) :
    List RowSets :=
  if interHas inter c r then unders else unders.map (fun u => RowSets.add u r c)

/-- One iteration of the second `updateMovement` loop (new rectangle's row):
`this.queueRerender(r, c)` unconditionally, then the same notification of the
objects underneath for cells outside the intersection. -/
def selfStep (inter : Option Rectangle) (r : Int) (st : RowSets × List RowSets) (c : Int) :
    RowSets × List RowSets :=
  let self := RowSets.add st.1 r c
  if interHas inter c r then (self, st.2)
  else (self, st.2.map (fun u => RowSets.add u r c))

/-- `TextObject.updateMovement` (src/unnamed/part_001 lines 29–64). -/
def updateMovement (o : TextObject) : TextObject :=
  match o.previousRectangle with
  | none => o
  | some prev =>
    if rectangleEquals o.rectangle prev then o
    else
      let inter := rectangleIntersection o.rectangle prev
      let unders1 := (intRange prev.column (prev.column + prev.width)).foldl
        (underStep inter prev.row) o.objectsUnder
      let st := (intRange o.rectangle.column (o.rectangle.column + o.rectangle.width)).foldl
        (selfStep inter o.rectangle.row) (o.rerenderCells, unders1)
      { o with rerenderCells := st.1, objectsUnder := st.2 }

/-- Modelled from the spec: the base class `DrawObject.update`
(draw_object.ts is not among the sources).  The spec assigns no
rerender-queue or geometry effect to the base update step, so it is the
identity on the embedded state. -/
def baseUpdate (o : TextObject) : TextObject := o

/-- One iteration of the `update` diff loop (src/unnamed/part_001 lines
75–79): queue `(rectangle.row, rectangle.column + i)` when
`value[i] !== previousValue[i]`. -/
def updateDiffStep (value previousValue : List Char) (rect : Rectangle)
    (s : RowSets) (i : Nat) : RowSets :=
  if charAtI value i != charAtI previousValue i then
    RowSets.add s rect.row (rect.column + i)
  else s

/-- `TextObject.update` (src/unnamed/part_001 lines 66–85). -/
def update (o : TextObject) : TextObject :=
  let o := baseUpdate o
  if o.value == o.previousValue then o
  else
    let o1 :=
      if o.rendered then
        let rc := (List.range o.value.length).foldl
          (updateDiffStep o.value o.previousValue o.rectangle) o.rerenderCells
        { o with rerenderCells := rc }
      else o
    { o1 with
        rectangle := { o1.rectangle with width := textWidth o1.value, height := 1 },
        previousValue := o1.value }

/-- The `render` per-character loop (src/unnamed/part_001 lines 105–117):
`column < 0` skips the character, `column >= columns` stops the loop
(`break`), omitted columns are skipped, otherwise the styled character is
written and the column queued. -/
def renderLoop (style : Option Char → String) (row startColumn : Int) (om : Finset Int)
    (value : List Char) (idx : Int) (canvas : Canvas) : Canvas :=
  match value with
  | [] => canvas
  | ch :: rest =>
    let column := startColumn + idx
    if column < 0 then renderLoop style row startColumn om rest (idx + 1) canvas
    else if canvas.columns ≤ column then canvas
    else if column ∈ om then renderLoop style row startColumn om rest (idx + 1) canvas
    else
      renderLoop style row startColumn om rest (idx + 1)
        { canvas with
            frameBuffer := writeCell canvas.frameBuffer row column (style (some ch)),
            rerenderQueue := RowSets.add canvas.rerenderQueue row column }

/-- `TextObject.render` (src/unnamed/part_001 lines 87–120). -/
def render (o : TextObject) (canvas : Canvas) : TextObject × Canvas :=
  if o.rectangle.row < 0 ∨ canvas.rows ≤ o.rectangle.row then (o, canvas)
  else if optSizeEq (o.omitCells.get o.rectangle.row) o.rectangle.width then
    ({ o with omitCells := o.omitCells.clearRow o.rectangle.row }, canvas)
  else
    ({ o with omitCells := o.omitCells.clearRow o.rectangle.row },
      renderLoop o.style o.rectangle.row o.rectangle.column
        (o.omitCells.cells o.rectangle.row) o.value 0
        { canvas with rerenderQueue := canvas.rerenderQueue.ensure o.rectangle.row })

/-- One iteration of the `rerender` loop over the queued columns
(src/unnamed/part_001 lines 144–155): out-of-bounds, out-of-rectangle and
omitted columns are skipped, otherwise `style(value[column - column0])` is
written and the column queued. -/
def rerenderColStep (style : Option Char → String) (value : List Char) (rect : Rectangle)
    (om : Finset Int) (row : Int) (canvas : Canvas) (column : Int) : Canvas :=
  if column < 0 ∨ canvas.columns ≤ column ∨ column < rect.column ∨
      rect.column + rect.width ≤ column ∨ column ∈ om then
    canvas
  else
    { canvas with
        frameBuffer := writeCell canvas.frameBuffer row column
          (style (charAtI value (column - rect.column))),
        rerenderQueue := RowSets.add canvas.rerenderQueue row column }

/-- `TextObject.rerender` (src/unnamed/part_001 lines 122–159).  The order of
the guards follows the source: the absent-queue return, then the
fully-omitted fast path, then the row bounds check. -/
def rerender (o : TextObject) (canvas : Canvas) : TextObject × Canvas :=
  if o.rectangle.row ∉ o.rerenderCells.dom then (o, canvas)
  else if optSizeEq (o.omitCells.get o.rectangle.row) o.rectangle.width then
    ({ o with omitCells := o.omitCells.clearRow o.rectangle.row }, canvas)
  else if o.rectangle.row < 0 ∨ canvas.rows ≤ o.rectangle.row then (o, canvas)
  else
    ({ o with rerenderCells := o.rerenderCells.clearRow o.rectangle.row,
              omitCells := o.omitCells.clearRow o.rectangle.row },
      (sortedCols (o.rerenderCells.cells o.rectangle.row)).foldl
        (rerenderColStep o.style o.value o.rectangle
          (o.omitCells.cells o.rectangle.row) o.rectangle.row)
        { canvas with rerenderQueue := canvas.rerenderQueue.ensure o.rectangle.row })

end TextObject

/-- The state of a `BoxObject` (src/unnamed/part_002).  `rectangle`, `style`,
`filler` and the optional clipping `view` rectangle sit behind signals in the
source and are peeked once at the start of `rerender`; they are embedded as
their current values. -/
structure BoxObject where
  rectangle : Rectangle
  filler : String
  style : String → String
  view : Option Rectangle
  rerenderCells : RowSets
  omitCells : RowSets

namespace BoxObject

/-- `rowRange` (src/unnamed/part_002 lines 32 and 36–39): capped by the
rectangle's bottom edge, the terminal height and (when set) the view's
bottom edge. -/
def rowRange (o : BoxObject) (canvas : Canvas) : Int :=
  match o.view with
  | none => min (o.rectangle.row + o.rectangle.height) canvas.rows
  | some v => min (min (o.rectangle.row + o.rectangle.height) canvas.rows) (v.row + v.height)

/-- `columnRange` (src/unnamed/part_002 lines 33 and 36–39). -/
def columnRange (o : BoxObject) (canvas : Canvas) : Int :=
  match o.view with
  | none => min (o.rectangle.column + o.rectangle.width) canvas.columns
  | some v =>
    min (min (o.rectangle.column + o.rectangle.width) canvas.columns) (v.column + v.width)

/-- One iteration of the inner column loop (src/unnamed/part_002 lines
58–65): omitted columns and columns outside `[rectangle.column,
columnRange)` are skipped, otherwise `style(filler)` is written and the
column queued. -/
def colStep (styled : String) (rectColumn cr row : Int) (om : Finset Int)
    (canvas : Canvas) (column : Int) : Canvas :=
  if column ∈ om ∨ column < rectColumn ∨ cr ≤ column then canvas
  else
    { canvas with
        frameBuffer := writeCell canvas.frameBuffer row column styled,
        rerenderQueue := RowSets.add canvas.rerenderQueue row column }

/-- One iteration of the outer row loop (src/unnamed/part_002 lines 41–69):
skip rows without a queued set and rows at or past `rowRange`; the
fully-omitted fast path clears the omit set and skips the row; otherwise
paint the queued columns and clear the row's queued and omitted sets.
(`frameBuffer[row] ??= []` only materializes the row array and has no
observable effect in this embedding.) -/
def rowStep (rr cr : Int) (st : BoxObject × Canvas) (row : Int) : BoxObject × Canvas :=
  if row ∉ st.1.rerenderCells.dom then st
  else if rr ≤ row then st
  else if optSizeEq (st.1.omitCells.get row) st.1.rectangle.width then
    ({ st.1 with omitCells := st.1.omitCells.clearRow row }, st.2)
  else
    ({ st.1 with rerenderCells := st.1.rerenderCells.clearRow row,
                 omitCells := st.1.omitCells.clearRow row },
      (sortedCols (st.1.rerenderCells.cells row)).foldl
        (colStep (st.1.style st.1.filler) st.1.rectangle.column cr row
          (st.1.omitCells.cells row))
        { st.2 with rerenderQueue := st.2.rerenderQueue.ensure row })

/-- `BoxObject.rerender` (src/unnamed/part_002 lines 23–70).  The outer loop
runs `row` from `rectangle.row` while `row < rerenderCells.length`; the
length never changes during the loop, and a row index passes the length test
exactly when it is occupied (negative occupied indices are always below the
non-negative length), so the loop visits exactly
`intRange rectangle.row rerenderCells.len`. -/
def rerender (o : BoxObject) (canvas : Canvas) : BoxObject × Canvas :=
  (intRange o.rectangle.row o.rerenderCells.len).foldl
    (rowStep (rowRange o canvas) (columnRange o canvas)) (o, canvas)

end BoxObject

/-- A component as `createComponent` builds it (src/unnamed/part_000 lines
257–276), restricted to the fields the registry-ordering claims read. -/
structure Component where
  id : Nat
  drawPriority : Int
  deriving DecidableEq

/-- `createComponent`'s effect on `instance.components` (src/unnamed/part_000
lines 278–283): push the new component, then sort by the comparator
`(b, a) => b.drawPriority - a.drawPriority`, which orders by ascending
`drawPriority`. -/
def createComponentList (comps : List Component) (c : Component) : List Component :=
  (comps ++ [c]).mergeSort (fun a b => a.drawPriority ≤ b.drawPriority)

/-- `removeComponent`'s effect on `instance.components` (src/unnamed/part_000
lines 204–218): filter the component out, keeping the order of the rest. -/
def removeComponentList (comps : List Component) (c : Component) : List Component :=
  comps.filter (fun comp => comp != c)

/-- One registry operation on the instance's component list. -/
inductive TuiOp where
  | create (c : Component)
  | remove (c : Component)

/-- Apply one registry operation. -/
def applyOp (comps : List Component) : TuiOp → List Component
  | TuiOp.create c => createComponentList comps c
  | TuiOp.remove c => removeComponentList comps c

/-- The component list after a sequence of operations, starting from the
fresh instance's empty list. -/
def applyOps (ops : List TuiOp) : List Component :=
  ops.foldl applyOp []

/-- The module-global `let componentId = 0` counter and `id: componentId++`
(src/unnamed/part_000 lines 220 and 258): a call hands out the current
counter as the new id and increments the counter. -/
def createComponentId (componentId : Nat) : Nat × Nat :=
  (componentId, componentId + 1)

/-- The ids handed out by `n` successive `createComponent` calls starting
from counter value `componentId`. -/
def assignedIds (componentId : Nat) : Nat → List Nat
  | 0 => []
  | Nat.succ n =>
    (createComponentId componentId).1 :: assignedIds (createComponentId componentId).2 n

/-- A 10×10 canvas with an untouched frame buffer and an empty rerender
queue, used by the concrete witnesses and counterexamples. -/
def canvas10 : Canvas := ⟨10, 10, fun _ _ => none, RowSets.empty⟩

/-- Concrete instance for the C1/C2 witnesses: a two-character text object
moved two columns to the right, with one object underneath. -/
def c1obj : TextObject :=
  { value := ['h', 'i']
    previousValue := ['h', 'i']
    rectangle := ⟨2, 0, 2, 1⟩
    previousRectangle := some ⟨0, 0, 2, 1⟩
    rendered := true
    style := fun _ => "s"
    rerenderCells := RowSets.empty
    omitCells := RowSets.empty
    objectsUnder := [RowSets.empty] }

/-- Concrete instance for the C3 counterexample: the omit set of row 0 has
size 2 = rectangle.width, but omits columns 0 and 5, so the non-omitted
in-bounds column 1 is skipped by the fully-omitted fast path. -/
def c3obj : TextObject :=
  { value := ['a', 'b']
    previousValue := ['a', 'b']
    rectangle := ⟨0, 0, 2, 1⟩
    previousRectangle := some ⟨0, 0, 2, 1⟩
    rendered := true
    style := fun _ => "s"
    rerenderCells := RowSets.empty
    omitCells := ⟨{0}, fun r => if r = 0 then {0, 5} else ∅⟩
    objectsUnder := [] }

/-- Concrete instance for the C3 amended witness: omit set {0} of size 1 ≠
width 2, column 1 visible and not omitted. -/
def c3wobj : TextObject :=
  { value := ['a', 'b']
    previousValue := ['a', 'b']
    rectangle := ⟨0, 0, 2, 1⟩
    previousRectangle := some ⟨0, 0, 2, 1⟩
    rendered := true
    style := fun _ => "s"
    rerenderCells := RowSets.empty
    omitCells := ⟨{0}, fun r => if r = 0 then {0} else ∅⟩
    objectsUnder := [] }

/-- Concrete instance for the C4 counterexample: an already-rendered,
position-unchanged text object whose value shrank from "ab" to "a". -/
def c4obj : TextObject :=
  { value := ['a']
    previousValue := ['a', 'b']
    rectangle := ⟨0, 0, 2, 1⟩
    previousRectangle := some ⟨0, 0, 2, 1⟩
    rendered := true
    style := fun _ => "s"
    rerenderCells := RowSets.empty
    omitCells := RowSets.empty
    objectsUnder := [] }

/-- Concrete instance for the C4 amended witness: value changed from "xb" to
"ab" (index 0 differs, index 1 does not). -/
def c4wobj : TextObject :=
  { value := ['a', 'b']
    previousValue := ['x', 'b']
    rectangle := ⟨0, 0, 2, 1⟩
    previousRectangle := some ⟨0, 0, 2, 1⟩
    rendered := true
    style := fun _ => "s"
    rerenderCells := RowSets.empty
    omitCells := RowSets.empty
    objectsUnder := [] }

/-- Concrete instance for the C5 counterexample and witness: a box whose
view rectangle starts at (1,1), with cell (0,0) queued — (0,0) is outside
the view on its top/left sides but inside the rectangle. -/
def c5box : BoxObject :=
  { rectangle := ⟨0, 0, 3, 3⟩
    filler := "#"
    style := fun s => s
    view := some ⟨1, 1, 5, 5⟩
    rerenderCells := ⟨{0}, fun r => if r = 0 then {0} else ∅⟩
    omitCells := RowSets.empty }

/-- Concrete instance for the C6 counterexample: a box extending into
negative rows and columns with cell (-1,-2) queued. -/
def c6box : BoxObject :=
  { rectangle := ⟨-3, -1, 5, 1⟩
    filler := "#"
    style := fun s => s
    view := none
    rerenderCells := ⟨{-1}, fun r => if r = -1 then {-2} else ∅⟩
    omitCells := RowSets.empty }

/-- Concrete instance for the C7 counterexample: a box on the off-screen row
-2 with the in-rectangle cell (-2,1) queued. -/
def c7box : BoxObject :=
  { rectangle := ⟨0, -2, 2, 1⟩
    filler := "x"
    style := fun s => s
    view := none
    rerenderCells := ⟨{-2}, fun r => if r = -2 then {1} else ∅⟩
    omitCells := RowSets.empty }

/-- Concrete instance for the C7/C8 text witnesses: columns 0 and 1 queued on
row 0, column 1 omitted. -/
def c8obj : TextObject :=
  { value := ['a', 'b']
    previousValue := ['a', 'b']
    rectangle := ⟨0, 0, 2, 1⟩
    previousRectangle := some ⟨0, 0, 2, 1⟩
    rendered := true
    style := fun _ => "s"
    rerenderCells := ⟨{0}, fun r => if r = 0 then {0, 1} else ∅⟩
    omitCells := ⟨{0}, fun r => if r = 0 then {1} else ∅⟩
    objectsUnder := [] }

/-- Concrete instance for the C8 box witness (and the C6 box clause of the
witness): cells queued on row 1, column 1 omitted. -/
def c8box : BoxObject :=
  { rectangle := ⟨0, 0, 3, 2⟩
    filler := "#"
    style := fun s => s
    view := none
    rerenderCells := ⟨{1}, fun r => if r = 1 then {0, 1} else ∅⟩
    omitCells := ⟨{1}, fun r => if r = 1 then {1} else ∅⟩ }

@[simp] theorem RowSets.cells_empty (r : Int) : RowSets.cells RowSets.empty r = ∅ := by
  simp [RowSets.cells, RowSets.empty]

theorem RowSets.cells_add (s : RowSets) (r c r2 : Int) :
    RowSets.cells (RowSets.add s r c) r2 =
      if r2 = r then insert c (RowSets.cells s r2) else RowSets.cells s r2 := by
  unfold RowSets.cells RowSets.add
  by_cases h : r ∈ s.dom
  · simp only [if_pos h]
    by_cases h2 : r2 = r
    · subst h2; simp [h]
    · simp [h2]
  · simp only [if_neg h]
    by_cases h2 : r2 = r
    · subst h2; simp [h, Finset.insert_eq]
    · simp only [if_neg h2, Finset.mem_insert]
      by_cases h3 : r2 ∈ s.dom
      · simp [h3, fun hc => h2 hc]
      · have : ¬(r2 = r ∨ r2 ∈ s.dom) := by
          intro hc; rcases hc with hc | hc
          · exact h2 hc
          · exact h3 hc
        simp [h2, h3, this]

theorem RowSets.cells_ensure (s : RowSets) (r r2 : Int) :
    RowSets.cells (RowSets.ensure s r) r2 = RowSets.cells s r2 := by
  unfold RowSets.cells RowSets.ensure
  by_cases h : r ∈ s.dom
  · simp [h]
  · by_cases h2 : r2 = r
    · subst h2; simp [h]
    · by_cases h3 : r2 ∈ s.dom
      · simp [h, h2, h3]
      · have : ¬(r2 = r ∨ r2 ∈ s.dom) := by
          intro hc; rcases hc with hc | hc
          · exact h2 hc
          · exact h3 hc
        simp [h, h2, h3, this]

theorem RowSets.cells_clearRow (s : RowSets) (r r2 : Int) :
    RowSets.cells (RowSets.clearRow s r) r2 =
      if r2 = r then ∅ else RowSets.cells s r2 := by
  unfold RowSets.cells RowSets.clearRow
  by_cases h : r ∈ s.dom
  · by_cases h2 : r2 = r
    · subst h2; simp [h]
    · simp [h, h2]
  · simp only [if_neg h]
    by_cases h2 : r2 = r
    · subst h2; simp [h]
    · simp [h2]

theorem RowSets.dom_add (s : RowSets) (r c : Int) :
    (RowSets.add s r c).dom = insert r s.dom := by
  unfold RowSets.add
  by_cases h : r ∈ s.dom
  · simp [h, Finset.insert_eq_self.mpr h]
  · simp [h]

theorem RowSets.dom_ensure (s : RowSets) (r : Int) :
    (RowSets.ensure s r).dom = insert r s.dom := by
  unfold RowSets.ensure
  by_cases h : r ∈ s.dom
  · simp [h, Finset.insert_eq_self.mpr h]
  · simp [h]

theorem RowSets.dom_clearRow (s : RowSets) (r : Int) :
    (RowSets.clearRow s r).dom = s.dom := by
  unfold RowSets.clearRow
  by_cases h : r ∈ s.dom <;> simp [h]

theorem RowSets.get_clearRow_ne (s : RowSets) (r r2 : Int) (h : r2 ≠ r) :
    RowSets.get (RowSets.clearRow s r) r2 = RowSets.get s r2 := by
  unfold RowSets.get RowSets.clearRow
  by_cases hd : r ∈ s.dom
  · by_cases h3 : r2 ∈ s.dom
    · simp [hd, h3, h]
    · simp [hd, h3]
  · simp [hd]

theorem RowSets.lt_len (s : RowSets) (r : Int) (h : r ∈ s.dom) : r < RowSets.len s := by
  unfold RowSets.len
  have hbase : (0:Int) ≤ s.dom.fold max 0 (fun r => if 0 ≤ r then r + 1 else 0) :=
    (Finset.le_fold_max 0).mpr (Or.inl le_rfl)
  rcases lt_or_le r 0 with hr | hr
  · omega
  · have hx : ((if 0 ≤ r then r + 1 else 0) : Int) ≤
        s.dom.fold max 0 (fun r => if 0 ≤ r then r + 1 else 0) :=
      (Finset.le_fold_max _).mpr (Or.inr ⟨r, h, le_rfl⟩)
    rw [if_pos hr] at hx
    omega

theorem mem_intRange (a b c : Int) : c ∈ intRange a b ↔ a ≤ c ∧ c < b := by
  unfold intRange
  simp only [List.mem_map, List.mem_range]
  constructor
  · rintro ⟨i, hi, rfl⟩
    omega
  · rintro ⟨h1, h2⟩
    exact ⟨(c - a).toNat, by omega, by omega⟩

theorem intRange_nodup (a b : Int) : (intRange a b).Nodup := by
  unfold intRange
  refine List.Nodup.map (fun x y hxy => by omega) (List.nodup_range _)

theorem mem_sortedInsert (a c : Int) (l : List Int) :
    c ∈ sortedInsert a l ↔ c = a ∨ c ∈ l := by
  induction l with
  | nil => simp [sortedInsert]
  | cons b l ih =>
    unfold sortedInsert
    by_cases h : a ≤ b
    · rw [if_pos h]
      simp only [List.mem_cons]
    · rw [if_neg h]
      simp only [List.mem_cons, ih]
      tauto

theorem mem_foldr_sortedInsert (m : Multiset Int) (c : Int) :
    c ∈ Multiset.foldr sortedInsert [] m ↔ c ∈ m := by
  induction m using Multiset.induction_on with
  | empty => simp
  | cons a s ih =>
    rw [Multiset.foldr_cons, mem_sortedInsert]
    simp [ih]

theorem mem_sortedCols {s : Finset Int} {c : Int} :
    c ∈ sortedCols s ↔ c ∈ s := by
  unfold sortedCols
  rw [mem_foldr_sortedInsert, Finset.mem_val]

theorem writeCell_ne (fb : Int → Int → Option String) (r c : Int) (v : String)
    (r2 c2 : Int) (h : ¬(r2 = r ∧ c2 = c)) : writeCell fb r c v r2 c2 = fb r2 c2 := by
  unfold writeCell
  simp [h]

theorem mem_cells_add_self (s : RowSets) (r c : Int) :
    c ∈ RowSets.cells (RowSets.add s r c) r := by
  rw [RowSets.cells_add]
  simp

theorem mem_cells_add_of_mem (s : RowSets) (r c r2 c2 : Int)
    (h : c2 ∈ RowSets.cells s r2) : c2 ∈ RowSets.cells (RowSets.add s r c) r2 := by
  rw [RowSets.cells_add]
  by_cases h2 : r2 = r
  · rw [if_pos h2]
    exact Finset.mem_insert_of_mem h
  · rw [if_neg h2]
    exact h

theorem TextObject.selfStep_fst_mono (inter : Option Rectangle) (r : Int)
    (st : RowSets × List RowSets) (c r2 c2 : Int) (h : c2 ∈ RowSets.cells st.1 r2) :
    c2 ∈ RowSets.cells (TextObject.selfStep inter r st c).1 r2 := by
  unfold TextObject.selfStep
  by_cases hc : interHas inter c r = true
  · simp only [if_pos hc]
    exact mem_cells_add_of_mem _ _ _ _ _ h
  · simp only [Bool.not_eq_true] at hc
    simp only [hc, Bool.false_eq_true, if_false]
    exact mem_cells_add_of_mem _ _ _ _ _ h

theorem TextObject.selfStep_fst_adds (inter : Option Rectangle) (r : Int)
    (st : RowSets × List RowSets) (c : Int) :
    c ∈ RowSets.cells (TextObject.selfStep inter r st c).1 r := by
  unfold TextObject.selfStep
  by_cases hc : interHas inter c r = true
  · simp only [if_pos hc]
    exact mem_cells_add_self _ _ _
  · simp only [Bool.not_eq_true] at hc
    simp only [hc, Bool.false_eq_true, if_false]
    exact mem_cells_add_self _ _ _

theorem TextObject.selfStep_fold_mono (inter : Option Rectangle) (r : Int) (l : List Int)
    (st : RowSets × List RowSets) (r2 c2 : Int) (h : c2 ∈ RowSets.cells st.1 r2) :
    c2 ∈ RowSets.cells ((l.foldl (TextObject.selfStep inter r) st).1) r2 := by
  induction l generalizing st with
  | nil => exact h
  | cons x xs ih => exact ih _ (TextObject.selfStep_fst_mono inter r st x r2 c2 h)

theorem TextObject.selfStep_fold_adds (inter : Option Rectangle) (r : Int) (l : List Int)
    (st : RowSets × List RowSets) (c : Int) (hc : c ∈ l) :
    c ∈ RowSets.cells ((l.foldl (TextObject.selfStep inter r) st).1) r := by
  induction l generalizing st with
  | nil => cases hc
  | cons x xs ih =>
    rcases List.mem_cons.mp hc with h | h
    · subst h
      exact TextObject.selfStep_fold_mono inter r xs _ r c
        (TextObject.selfStep_fst_adds inter r st c)
    · exact ih _ h

theorem TextObject.underStep_inv (inter : Option Rectangle) (r : Int) (us : List RowSets)
    (c : Int) (P : RowSets → Prop)
    (hP : ∀ s r2 c2, P s → P (RowSets.add s r2 c2))
    (h : ∀ u ∈ us, P u) : ∀ u ∈ TextObject.underStep inter r us c, P u := by
  unfold TextObject.underStep
  by_cases hc : interHas inter c r = true
  · simp only [if_pos hc]
    exact h
  · simp only [Bool.not_eq_true] at hc
    simp only [hc, Bool.false_eq_true, if_false]
    intro u hu
    rcases List.mem_map.mp hu with ⟨u0, hu0, rfl⟩
    exact hP _ _ _ (h u0 hu0)

theorem TextObject.underStep_establish (inter : Option Rectangle) (r : Int)
    (us : List RowSets) (c : Int) (hskip : interHas inter c r = false) :
    ∀ u ∈ TextObject.underStep inter r us c, c ∈ RowSets.cells u r := by
  unfold TextObject.underStep
  simp only [hskip, Bool.false_eq_true, if_false]
  intro u hu
  rcases List.mem_map.mp hu with ⟨u0, hu0, rfl⟩
  exact mem_cells_add_self _ _ _

theorem TextObject.underStep_fold_inv (inter : Option Rectangle) (r : Int) (l : List Int)
    (us : List RowSets) (r0 c0 : Int)
    (h : ∀ u ∈ us, c0 ∈ RowSets.cells u r0) :
    ∀ u ∈ l.foldl (TextObject.underStep inter r) us, c0 ∈ RowSets.cells u r0 := by
  induction l generalizing us with
  | nil => exact h
  | cons x xs ih =>
    exact ih _ (TextObject.underStep_inv inter r us x _
      (fun s r2 c2 => mem_cells_add_of_mem s r2 c2 r0 c0) h)

theorem TextObject.underStep_fold_establish (inter : Option Rectangle) (r : Int)
    (l : List Int) (us : List RowSets) (c : Int) (hc : c ∈ l)
    (hskip : interHas inter c r = false) :
    ∀ u ∈ l.foldl (TextObject.underStep inter r) us, c ∈ RowSets.cells u r := by
  induction l generalizing us with
  | nil => cases hc
  | cons x xs ih =>
    rcases List.mem_cons.mp hc with h | h
    · subst h
      exact TextObject.underStep_fold_inv inter r xs _ r c
        (TextObject.underStep_establish inter r us c hskip)
    · exact fun u hu => ih _ h u hu

theorem TextObject.selfStep_snd_inv (inter : Option Rectangle) (r : Int)
    (st : RowSets × List RowSets) (c r0 c0 : Int)
    (h : ∀ u ∈ st.2, c0 ∈ RowSets.cells u r0) :
    ∀ u ∈ (TextObject.selfStep inter r st c).2, c0 ∈ RowSets.cells u r0 := by
  unfold TextObject.selfStep
  by_cases hc : interHas inter c r = true
  · simp only [if_pos hc]
    exact h
  · simp only [Bool.not_eq_true] at hc
    simp only [hc, Bool.false_eq_true, if_false]
    intro u hu
    rcases List.mem_map.mp hu with ⟨u0, hu0, rfl⟩
    exact mem_cells_add_of_mem _ _ _ _ _ (h u0 hu0)

theorem TextObject.selfStep_fold_snd_inv (inter : Option Rectangle) (r : Int)
    (l : List Int) (st : RowSets × List RowSets) (r0 c0 : Int)
    (h : ∀ u ∈ st.2, c0 ∈ RowSets.cells u r0) :
    ∀ u ∈ ((l.foldl (TextObject.selfStep inter r) st).2), c0 ∈ RowSets.cells u r0 := by
  induction l generalizing st with
  | nil => exact h
  | cons x xs ih => exact ih _ (TextObject.selfStep_snd_inv inter r st x r0 c0 h)

theorem interHas_fits (a b : Rectangle) (c r : Int)
    (h : interHas (rectangleIntersection a b) c r = true) :
    fitsInRectangle c r a = true ∧ fitsInRectangle c r b = true := by
  unfold interHas rectangleIntersection at h
  by_cases hcase : (min (a.column + a.width) (b.column + b.width) - max a.column b.column ≤ 0 ∨
      min (a.row + a.height) (b.row + b.height) - max a.row b.row ≤ 0)
  · rw [if_pos hcase] at h
    cases h
  · rw [if_neg hcase] at h
    simp only [fitsInRectangle, Bool.and_eq_true, decide_eq_true_eq] at h ⊢
    omega

/-- C1: a moved text object (previous rectangle present and different from the
current one) has every cell of its new rectangle — every column from
`rectangle.column` to `rectangle.column + rectangle.width - 1` on the
rectangle's row — queued for its own rerender by `updateMovement`,
unconditionally, including cells that also lay in the old rectangle. -/
theorem text_updateMovement_queues_whole_new_rectangle (o : TextObject) (pr : Rectangle)
    (hprev : o.previousRectangle = some pr)
    (hne : rectangleEquals o.rectangle pr = false)
    (c : Int) (hc1 : o.rectangle.column ≤ c)
    (hc2 : c < o.rectangle.column + o.rectangle.width) :
    c ∈ RowSets.cells (o.updateMovement).rerenderCells o.rectangle.row := by
  unfold TextObject.updateMovement
  rw [hprev]
  simp only [hne, Bool.false_eq_true, if_false]
  exact TextObject.selfStep_fold_adds _ _ _ _ c ((mem_intRange _ _ c).mpr ⟨hc1, hc2⟩)

theorem text_updateMovement_queues_whole_new_rectangle_witness :
    c1obj.previousRectangle = some ⟨0, 0, 2, 1⟩ ∧
    rectangleEquals c1obj.rectangle ⟨0, 0, 2, 1⟩ = false ∧
    3 ∈ RowSets.cells (c1obj.updateMovement).rerenderCells 0 :=
  ⟨rfl, by decide,
    text_updateMovement_queues_whole_new_rectangle c1obj ⟨0, 0, 2, 1⟩ rfl (by decide) 3
      (by decide) (by decide)⟩

/-- C2: when a text object's rectangle differs from its previous one,
`updateMovement` queues, on every object underneath, a rerender for every
cell of the old rectangle that is not inside the new rectangle (equivalently,
not in the intersection of old and new); text objects have height-1
rectangles. -/
theorem text_updateMovement_uncovers_objects_under (o : TextObject) (pr : Rectangle)
    (hprev : o.previousRectangle = some pr)
    (hne : rectangleEquals o.rectangle pr = false)
    (hh : pr.height = 1)
    (r c : Int) (hcell : fitsInRectangle c r pr = true)
    (hnotnew : fitsInRectangle c r o.rectangle = false) :
    ∀ u ∈ (o.updateMovement).objectsUnder, c ∈ RowSets.cells u r := by
  have hr : r = pr.row := by
    simp only [fitsInRectangle, Bool.and_eq_true, decide_eq_true_eq] at hcell
    omega
  have hcols : pr.column ≤ c ∧ c < pr.column + pr.width := by
    simp only [fitsInRectangle, Bool.and_eq_true, decide_eq_true_eq] at hcell
    omega
  have hskip : interHas (rectangleIntersection o.rectangle pr) c r = false := by
    by_cases h : interHas (rectangleIntersection o.rectangle pr) c r = true
    · exact absurd (interHas_fits _ _ _ _ h).1 (by simp [hnotnew])
    · simpa using h
  subst hr
  unfold TextObject.updateMovement
  rw [hprev]
  simp only [hne, Bool.false_eq_true, if_false]
  apply TextObject.selfStep_fold_snd_inv
  exact TextObject.underStep_fold_establish _ _ _ _ c
    ((mem_intRange _ _ c).mpr hcols) hskip

theorem text_updateMovement_uncovers_objects_under_witness :
    c1obj.previousRectangle = some ⟨0, 0, 2, 1⟩ ∧
    rectangleEquals c1obj.rectangle ⟨0, 0, 2, 1⟩ = false ∧
    fitsInRectangle 0 0 ⟨0, 0, 2, 1⟩ = true ∧
    fitsInRectangle 0 0 c1obj.rectangle = false ∧
    ∀ u ∈ (c1obj.updateMovement).objectsUnder, 0 ∈ RowSets.cells u 0 :=
  ⟨rfl, by decide, by decide, by decide,
    text_updateMovement_uncovers_objects_under c1obj ⟨0, 0, 2, 1⟩ rfl (by decide) rfl 0 0
      (by decide) (by decide)⟩

theorem TextObject.renderLoop_fb_frame (style : Option Char → String) (row startColumn : Int)
    (om : Finset Int) (value : List Char) :
    ∀ (idx : Int) (cv : Canvas) (r2 c2 : Int),
      (TextObject.renderLoop style row startColumn om value idx cv).frameBuffer r2 c2 ≠
        cv.frameBuffer r2 c2 →
      r2 = row ∧ 0 ≤ c2 ∧ c2 < cv.columns ∧ c2 ∉ om ∧ startColumn + idx ≤ c2 := by
  induction value with
  | nil => intro idx cv r2 c2 h; exact absurd rfl h
  | cons ch rest ih =>
    intro idx cv r2 c2 h
    simp only [TextObject.renderLoop] at h
    by_cases h1 : startColumn + idx < 0
    · rw [if_pos h1] at h
      obtain ⟨ha, hb, hc, hd, he⟩ := ih (idx + 1) cv r2 c2 h
      exact ⟨ha, hb, hc, hd, by omega⟩
    · rw [if_neg h1] at h
      by_cases h2 : cv.columns ≤ startColumn + idx
      · rw [if_pos h2] at h
        exact absurd rfl h
      · rw [if_neg h2] at h
        by_cases h3 : startColumn + idx ∈ om
        · rw [if_pos h3] at h
          obtain ⟨ha, hb, hc, hd, he⟩ := ih (idx + 1) cv r2 c2 h
          exact ⟨ha, hb, hc, hd, by omega⟩
        · rw [if_neg h3] at h
          rcases eq_or_ne
              ((TextObject.renderLoop style row startColumn om rest (idx + 1)
                { cv with
                    frameBuffer := writeCell cv.frameBuffer row (startColumn + idx)
                      (style (some ch)),
                    rerenderQueue :=
                      RowSets.add cv.rerenderQueue row (startColumn + idx) }).frameBuffer r2 c2)
              (writeCell cv.frameBuffer row (startColumn + idx) (style (some ch)) r2 c2)
            with h4 | h4
          · rw [h4] at h
            by_cases h5 : r2 = row ∧ c2 = startColumn + idx
            · refine ⟨h5.1, by omega, by omega, ?_, by omega⟩
              rw [h5.2]; exact h3
            · rw [writeCell_ne _ _ _ _ _ _ h5] at h
              exact absurd rfl h
          · obtain ⟨ha, hb, hc, hd, he⟩ := ih (idx + 1) _ r2 c2 h4
            exact ⟨ha, hb, hc, hd, by omega⟩

theorem TextObject.renderLoop_queue_mono (style : Option Char → String)
    (row startColumn : Int) (om : Finset Int) (value : List Char) :
    ∀ (idx : Int) (cv : Canvas) (r2 c2 : Int),
      c2 ∈ RowSets.cells cv.rerenderQueue r2 →
      c2 ∈ RowSets.cells
        (TextObject.renderLoop style row startColumn om value idx cv).rerenderQueue r2 := by
  induction value with
  | nil => intro idx cv r2 c2 h; exact h
  | cons ch rest ih =>
    intro idx cv r2 c2 h
    simp only [TextObject.renderLoop]
    by_cases h1 : startColumn + idx < 0
    · rw [if_pos h1]
      exact ih _ cv r2 c2 h
    · rw [if_neg h1]
      by_cases h2 : cv.columns ≤ startColumn + idx
      · rw [if_pos h2]
        exact h
      · rw [if_neg h2]
        by_cases h3 : startColumn + idx ∈ om
        · rw [if_pos h3]
          exact ih _ cv r2 c2 h
        · rw [if_neg h3]
          exact ih _ _ r2 c2 (mem_cells_add_of_mem _ _ _ _ _ h)

theorem TextObject.renderLoop_queue_frame (style : Option Char → String)
    (row startColumn : Int) (om : Finset Int) (value : List Char) :
    ∀ (idx : Int) (cv : Canvas) (r2 c2 : Int),
      c2 ∈ RowSets.cells
        (TextObject.renderLoop style row startColumn om value idx cv).rerenderQueue r2 →
      c2 ∈ RowSets.cells cv.rerenderQueue r2 ∨
        (r2 = row ∧ 0 ≤ c2 ∧ c2 < cv.columns ∧ c2 ∉ om) := by
  induction value with
  | nil => intro idx cv r2 c2 h; exact Or.inl h
  | cons ch rest ih =>
    intro idx cv r2 c2 h
    simp only [TextObject.renderLoop] at h
    by_cases h1 : startColumn + idx < 0
    · rw [if_pos h1] at h
      exact ih (idx + 1) cv r2 c2 h
    · rw [if_neg h1] at h
      by_cases h2 : cv.columns ≤ startColumn + idx
      · rw [if_pos h2] at h
        exact Or.inl h
      · rw [if_neg h2] at h
        by_cases h3 : startColumn + idx ∈ om
        · rw [if_pos h3] at h
          exact ih (idx + 1) cv r2 c2 h
        · rw [if_neg h3] at h
          rcases ih (idx + 1) _ r2 c2 h with h4 | h4
          · rw [RowSets.cells_add] at h4
            by_cases h5 : r2 = row
            · rw [if_pos h5] at h4
              rcases Finset.mem_insert.mp h4 with h6 | h6
              · refine Or.inr ⟨h5, by omega, by omega, ?_⟩
                rw [h6]; exact h3
              · exact Or.inl h6
            · rw [if_neg h5] at h4
              exact Or.inl h4
          · exact Or.inr h4

theorem TextObject.renderLoop_writes (style : Option Char → String) (row startColumn : Int)
    (om : Finset Int) (value : List Char) :
    ∀ (idx : Int) (cv : Canvas) (i : Nat) (hi : i < value.length),
      0 ≤ startColumn + idx + (i : Int) →
      startColumn + idx + (i : Int) < cv.columns →
      startColumn + idx + (i : Int) ∉ om →
      (TextObject.renderLoop style row startColumn om value idx cv).frameBuffer row
          (startColumn + idx + (i : Int)) = some (style (some (value.get ⟨i, hi⟩))) ∧
        (startColumn + idx + (i : Int)) ∈ RowSets.cells
          (TextObject.renderLoop style row startColumn om value idx cv).rerenderQueue row := by
  induction value with
  | nil => intro idx cv i hi; exact absurd hi (Nat.not_lt_zero i)
  | cons ch rest ih =>
    intro idx cv i hi h0 hcols hom
    cases i with
    | zero =>
      simp only [Nat.cast_zero, add_zero] at h0 hcols hom ⊢
      simp only [TextObject.renderLoop]
      rw [if_neg (by omega : ¬ startColumn + idx < 0)]
      rw [if_neg (by omega : ¬ cv.columns ≤ startColumn + idx)]
      rw [if_neg hom]
      constructor
      · rcases eq_or_ne
            ((TextObject.renderLoop style row startColumn om rest (idx + 1)
              { cv with
                  frameBuffer := writeCell cv.frameBuffer row (startColumn + idx)
                    (style (some ch)),
                  rerenderQueue :=
                    RowSets.add cv.rerenderQueue row (startColumn + idx) }).frameBuffer row
              (startColumn + idx))
            (writeCell cv.frameBuffer row (startColumn + idx) (style (some ch)) row
              (startColumn + idx))
          with h4 | h4
        · rw [h4]
          unfold writeCell
          rw [if_pos ⟨rfl, rfl⟩]
          rfl
        · obtain ⟨_, _, _, _, he⟩ :=
            TextObject.renderLoop_fb_frame style row startColumn om rest (idx + 1) _ row
              (startColumn + idx) h4
          omega
      · exact TextObject.renderLoop_queue_mono style row startColumn om rest (idx + 1) _ row
          (startColumn + idx) (mem_cells_add_self _ _ _)
    | succ i' =>
      have hlt : i' < rest.length := by
        simpa [Nat.succ_lt_succ_iff] using hi
      push_cast at h0 hcols hom ⊢
      have harith : startColumn + idx + ((i' : Int) + 1) = startColumn + (idx + 1) + (i' : Int) := by
        ring
      rw [harith] at h0 hcols hom ⊢
      simp only [TextObject.renderLoop]
      by_cases h1 : startColumn + idx < 0
      · rw [if_pos h1]
        exact ih (idx + 1) cv i' hlt h0 hcols hom
      · rw [if_neg h1]
        by_cases h2 : cv.columns ≤ startColumn + idx
        · exfalso; omega
        · rw [if_neg h2]
          by_cases h3 : startColumn + idx ∈ om
          · rw [if_pos h3]
            exact ih (idx + 1) cv i' hlt h0 hcols hom
          · rw [if_neg h3]
            exact ih (idx + 1) _ i' hlt h0 hcols hom

/-- C3 counterexample: for `c3obj` the omit set of row 0 is {0, 5}, whose
size equals `rectangle.width = 2`, so `render` takes the fully-omitted fast
path and skips the row entirely: column 1 is in bounds, within the value and
not omitted, yet it is neither written nor queued — contradicting the claim
that every non-omitted visible cell is still painted for every state of the
omit set. -/
theorem text_render_omit_counterexample :
    (1 : Int) ∉ RowSets.cells c3obj.omitCells 0 ∧
    c3obj.rectangle.row = 0 ∧ (0:Int) ≤ 0 ∧ (0:Int) < canvas10.rows ∧
    (0:Int) ≤ 1 ∧ (1:Int) < canvas10.columns ∧ c3obj.value.length = 2 ∧
    (c3obj.render canvas10).2.frameBuffer 0 1 = none ∧
    (1 : Int) ∉ RowSets.cells (c3obj.render canvas10).2.rerenderQueue 0 := by
  decide

/-- C3 (amended): provided the object's row is on screen and the omit set of
that row does not have size exactly `rectangle.width`, `render` writes
`style(value[i])` into the frame buffer and queues the column for every
in-bounds non-omitted column of the value, and performs no write and no queue
change for any column in the omit set.  (When the omit-set size equals
`rectangle.width`, `render` instead clears the omit set and paints nothing —
the fully-occluded fast path — even if the omitted columns do not coincide
with the value's columns.) -/
theorem text_render_paints_nonomitted_skips_omitted (o : TextObject) (cv : Canvas)
    (hrow0 : 0 ≤ o.rectangle.row) (hrow1 : o.rectangle.row < cv.rows)
    (hfast : optSizeEq (o.omitCells.get o.rectangle.row) o.rectangle.width = false) :
    (∀ (i : Nat) (hi : i < o.value.length),
      0 ≤ o.rectangle.column + (i : Int) →
      o.rectangle.column + (i : Int) < cv.columns →
      o.rectangle.column + (i : Int) ∉ RowSets.cells o.omitCells o.rectangle.row →
      (o.render cv).2.frameBuffer o.rectangle.row (o.rectangle.column + (i : Int)) =
          some (o.style (some (o.value.get ⟨i, hi⟩))) ∧
        (o.rectangle.column + (i : Int)) ∈
          RowSets.cells (o.render cv).2.rerenderQueue o.rectangle.row) ∧
    (∀ c : Int, c ∈ RowSets.cells o.omitCells o.rectangle.row →
      (o.render cv).2.frameBuffer o.rectangle.row c = cv.frameBuffer o.rectangle.row c ∧
        (c ∈ RowSets.cells (o.render cv).2.rerenderQueue o.rectangle.row ↔
          c ∈ RowSets.cells cv.rerenderQueue o.rectangle.row)) := by
  unfold TextObject.render
  rw [if_neg (by omega : ¬(o.rectangle.row < 0 ∨ cv.rows ≤ o.rectangle.row))]
  rw [if_neg (by simp [hfast])]
  constructor
  · intro i hi hc0 hc1 hcom
    have harith : o.rectangle.column + (i : Int) = o.rectangle.column + 0 + (i : Int) := by
      ring
    rw [harith] at hc0 hc1 hcom ⊢
    exact TextObject.renderLoop_writes o.style o.rectangle.row o.rectangle.column
      (RowSets.cells o.omitCells o.rectangle.row) o.value 0 _ i hi hc0 hc1 hcom
  · intro c hcom
    constructor
    · rcases eq_or_ne
          ((TextObject.renderLoop o.style o.rectangle.row o.rectangle.column
            (RowSets.cells o.omitCells o.rectangle.row) o.value 0
            { cv with rerenderQueue := cv.rerenderQueue.ensure o.rectangle.row }).frameBuffer
            o.rectangle.row c)
          (cv.frameBuffer o.rectangle.row c)
        with h4 | h4
      · exact h4
      · obtain ⟨_, _, _, hd, _⟩ := TextObject.renderLoop_fb_frame o.style o.rectangle.row
          o.rectangle.column (RowSets.cells o.omitCells o.rectangle.row) o.value 0 _
          o.rectangle.row c h4
        exact absurd hcom hd
    · constructor
      · intro hmem
        rcases TextObject.renderLoop_queue_frame o.style o.rectangle.row o.rectangle.column
            (RowSets.cells o.omitCells o.rectangle.row) o.value 0 _ o.rectangle.row c hmem
          with h4 | h4
        · rwa [RowSets.cells_ensure] at h4
        · exact absurd hcom h4.2.2.2
      · intro hmem
        apply TextObject.renderLoop_queue_mono
        rwa [RowSets.cells_ensure]

theorem text_render_paints_nonomitted_skips_omitted_witness :
    optSizeEq (c3wobj.omitCells.get c3wobj.rectangle.row) c3wobj.rectangle.width = false ∧
    ((c3wobj.render canvas10).2.frameBuffer 0 1 = some "s" ∧
      (1 : Int) ∈ RowSets.cells (c3wobj.render canvas10).2.rerenderQueue 0) ∧
    ((c3wobj.render canvas10).2.frameBuffer 0 0 = canvas10.frameBuffer 0 0 ∧
      ((0 : Int) ∈ RowSets.cells (c3wobj.render canvas10).2.rerenderQueue 0 ↔
        (0 : Int) ∈ RowSets.cells canvas10.rerenderQueue 0)) :=
  ⟨by decide,
    (text_render_paints_nonomitted_skips_omitted c3wobj canvas10 (by decide) (by decide)
      (by decide)).1 1 (by decide) (by decide) (by decide) (by decide),
    (text_render_paints_nonomitted_skips_omitted c3wobj canvas10 (by decide) (by decide)
      (by decide)).2 0 (by decide)⟩

theorem TextObject.updateDiffStep_mono (value previousValue : List Char) (rect : Rectangle)
    (s : RowSets) (i : Nat) (r2 c2 : Int) (h : c2 ∈ RowSets.cells s r2) :
    c2 ∈ RowSets.cells (TextObject.updateDiffStep value previousValue rect s i) r2 := by
  unfold TextObject.updateDiffStep
  by_cases hd : (charAtI value i != charAtI previousValue i) = true
  · rw [if_pos hd]
    exact mem_cells_add_of_mem _ _ _ _ _ h
  · rw [if_neg hd]
    exact h

theorem TextObject.updateDiff_fold_mono (value previousValue : List Char) (rect : Rectangle)
    (l : List Nat) (s : RowSets) (r2 c2 : Int) (h : c2 ∈ RowSets.cells s r2) :
    c2 ∈ RowSets.cells
      (l.foldl (TextObject.updateDiffStep value previousValue rect) s) r2 := by
  induction l generalizing s with
  | nil => exact h
  | cons x xs ih =>
    exact ih _ (TextObject.updateDiffStep_mono value previousValue rect s x r2 c2 h)

theorem TextObject.updateDiff_fold_adds (value previousValue : List Char) (rect : Rectangle)
    (l : List Nat) (s : RowSets) (i : Nat) (hi : i ∈ l)
    (hd : charAtI value i ≠ charAtI previousValue i) :
    (rect.column + (i : Int)) ∈ RowSets.cells
      (l.foldl (TextObject.updateDiffStep value previousValue rect) s) rect.row := by
  induction l generalizing s with
  | nil => cases hi
  | cons x xs ih =>
    rw [List.foldl_cons]
    rcases List.mem_cons.mp hi with h | h
    · subst h
      apply TextObject.updateDiff_fold_mono
      unfold TextObject.updateDiffStep
      rw [if_pos (bne_iff_ne.mpr hd)]
      exact mem_cells_add_self _ _ _
    · exact ih _ h

theorem TextObject.updateDiff_fold_frame (value previousValue : List Char) (rect : Rectangle)
    (l : List Nat) (s : RowSets) (r2 c2 : Int)
    (h : c2 ∈ RowSets.cells
      (l.foldl (TextObject.updateDiffStep value previousValue rect) s) r2) :
    c2 ∈ RowSets.cells s r2 ∨
      (r2 = rect.row ∧ ∃ i ∈ l, c2 = rect.column + (i : Int) ∧
        charAtI value i ≠ charAtI previousValue i) := by
  induction l generalizing s with
  | nil => exact Or.inl h
  | cons x xs ih =>
    rcases ih _ h with h2 | h2
    · unfold TextObject.updateDiffStep at h2
      by_cases hd : (charAtI value x != charAtI previousValue x) = true
      · rw [if_pos hd] at h2
        rw [RowSets.cells_add] at h2
        by_cases h5 : r2 = rect.row
        · rw [if_pos h5] at h2
          rcases Finset.mem_insert.mp h2 with h6 | h6
          · exact Or.inr ⟨h5, x, List.mem_cons_self x xs, h6, bne_iff_ne.mp hd⟩
          · exact Or.inl h6
        · rw [if_neg h5] at h2
          exact Or.inl h2
      · rw [if_neg hd] at h2
        exact Or.inl h2
    · exact Or.inr ⟨h2.1, h2.2.choose, List.mem_cons_of_mem x h2.2.choose_spec.1,
        h2.2.choose_spec.2⟩

/-- C4 counterexample: `c4obj` is rendered, has not moved (previous rectangle
equals the current one), and its value shrank from "ab" to "a"; the cell at
index 1 (the stale 'b') is NOT queued by `update`, contradicting the claim
that the cells from the new length up to the previous length - 1 are queued. -/
theorem text_update_shrink_counterexample :
    c4obj.rendered = true ∧ c4obj.value ≠ c4obj.previousValue ∧
    c4obj.previousRectangle = some c4obj.rectangle ∧
    c4obj.value.length = 1 ∧ c4obj.previousValue.length = 2 ∧
    charAtI c4obj.previousValue 1 = some 'b' ∧
    (1 : Int) ∉ RowSets.cells (c4obj.update).rerenderCells 0 := by
  decide

/-- C4 (amended): for an already-rendered text object whose value changed,
`update` queues the cell at every index `i < value.length` where the new and
previous characters differ, but queues nothing at indices at or beyond the
new value's length — a shrunken tail is not queued by `update` (its cells are
handed to the movement pass through the rectangle's width change, which
notifies the objects underneath rather than the object itself). -/
theorem text_update_queues_changed_cells (o : TextObject)
    (hr : o.rendered = true) (hne : o.value ≠ o.previousValue) :
    (∀ i : Nat, i < o.value.length →
      charAtI o.value i ≠ charAtI o.previousValue i →
      (o.rectangle.column + (i : Int)) ∈
        RowSets.cells (o.update).rerenderCells o.rectangle.row) ∧
    (∀ i : Nat, o.value.length ≤ i →
      (o.rectangle.column + (i : Int)) ∉ RowSets.cells o.rerenderCells o.rectangle.row →
      (o.rectangle.column + (i : Int)) ∉
        RowSets.cells (o.update).rerenderCells o.rectangle.row) := by
  unfold TextObject.update TextObject.baseUpdate
  rw [if_neg (by simp [hne])]
  simp only [hr, if_true]
  constructor
  · intro i hi hd
    exact TextObject.updateDiff_fold_adds o.value o.previousValue o.rectangle _ _ i
      (List.mem_range.mpr hi) hd
  · intro i hi hmem hcontra
    rcases TextObject.updateDiff_fold_frame o.value o.previousValue o.rectangle _ _ _ _
        hcontra with h | h
    · exact hmem h
    · obtain ⟨_, j, hj, hcj, _⟩ := h
      have : (j : Int) = (i : Int) := by omega
      have : j < o.value.length := List.mem_range.mp hj
      omega

theorem text_update_queues_changed_cells_witness :
    c4wobj.rendered = true ∧ c4wobj.value ≠ c4wobj.previousValue ∧
    charAtI c4wobj.value 0 ≠ charAtI c4wobj.previousValue 0 ∧
    (0 : Int) ∈ RowSets.cells (c4wobj.update).rerenderCells 0 ∧
    (2 : Int) ∉ RowSets.cells (c4wobj.update).rerenderCells 0 :=
  ⟨rfl, by decide, by decide,
    (text_update_queues_changed_cells c4wobj rfl (by decide)).1 0 (by decide) (by decide),
    (text_update_queues_changed_cells c4wobj rfl (by decide)).2 2 (by decide) (by decide)⟩

theorem TextObject.rerenderColStep_fold_queue_mono (style : Option Char → String)
    (value : List Char) (rect : Rectangle) (om : Finset Int) (row : Int) (l : List Int) :
    ∀ (cv : Canvas) (r2 c2 : Int), c2 ∈ RowSets.cells cv.rerenderQueue r2 →
      c2 ∈ RowSets.cells
        ((l.foldl (TextObject.rerenderColStep style value rect om row) cv)).rerenderQueue r2 := by
  induction l with
  | nil => intro cv r2 c2 h; exact h
  | cons x xs ih =>
    intro cv r2 c2 h
    rw [List.foldl_cons]
    apply ih
    unfold TextObject.rerenderColStep
    by_cases hg : (x < 0 ∨ cv.columns ≤ x ∨ x < rect.column ∨
        rect.column + rect.width ≤ x ∨ x ∈ om)
    · rw [if_pos hg]
      exact h
    · rw [if_neg hg]
      exact mem_cells_add_of_mem _ _ _ _ _ h

theorem TextObject.rerenderColStep_fold_fb_frame (style : Option Char → String)
    (value : List Char) (rect : Rectangle) (om : Finset Int) (row : Int) (l : List Int) :
    ∀ (cv : Canvas) (r2 c2 : Int),
      ((l.foldl (TextObject.rerenderColStep style value rect om row) cv)).frameBuffer r2 c2 ≠
        cv.frameBuffer r2 c2 →
      r2 = row ∧ c2 ∈ l ∧ 0 ≤ c2 ∧ c2 < cv.columns ∧ rect.column ≤ c2 ∧
        c2 < rect.column + rect.width ∧ c2 ∉ om := by
  induction l with
  | nil => intro cv r2 c2 h; exact absurd rfl h
  | cons x xs ih =>
    intro cv r2 c2 h
    rw [List.foldl_cons] at h
    by_cases hg : (x < 0 ∨ cv.columns ≤ x ∨ x < rect.column ∨
        rect.column + rect.width ≤ x ∨ x ∈ om)
    · have hstep : TextObject.rerenderColStep style value rect om row cv x = cv := by
        unfold TextObject.rerenderColStep
        rw [if_pos hg]
      rw [hstep] at h
      obtain ⟨ha, hb, hc⟩ := ih cv r2 c2 h
      exact ⟨ha, List.mem_cons_of_mem x hb, hc⟩
    · have hstep : TextObject.rerenderColStep style value rect om row cv x =
          { cv with
              frameBuffer := writeCell cv.frameBuffer row x
                (style (charAtI value (x - rect.column))),
              rerenderQueue := RowSets.add cv.rerenderQueue row x } := by
        unfold TextObject.rerenderColStep
        rw [if_neg hg]
      rw [hstep] at h
      push_neg at hg
      rcases eq_or_ne
          ((xs.foldl (TextObject.rerenderColStep style value rect om row)
            { cv with
                frameBuffer := writeCell cv.frameBuffer row x
                  (style (charAtI value (x - rect.column))),
                rerenderQueue := RowSets.add cv.rerenderQueue row x }).frameBuffer r2 c2)
          (writeCell cv.frameBuffer row x (style (charAtI value (x - rect.column))) r2 c2)
        with h4 | h4
      · rw [h4] at h
        by_cases h5 : r2 = row ∧ c2 = x
        · refine ⟨h5.1, ?_, by omega, by omega, by omega, by omega, ?_⟩
          · rw [h5.2]; exact List.mem_cons_self x xs
          · rw [h5.2]; exact hg.2.2.2.2
        · rw [writeCell_ne _ _ _ _ _ _ h5] at h
          exact absurd rfl h
      · obtain ⟨ha, hb, hc⟩ := ih _ r2 c2 h4
        exact ⟨ha, List.mem_cons_of_mem x hb, hc⟩

theorem TextObject.rerenderColStep_fold_queue_frame (style : Option Char → String)
    (value : List Char) (rect : Rectangle) (om : Finset Int) (row : Int) (l : List Int) :
    ∀ (cv : Canvas) (r2 c2 : Int),
      c2 ∈ RowSets.cells
        ((l.foldl (TextObject.rerenderColStep style value rect om row) cv)).rerenderQueue r2 →
      c2 ∈ RowSets.cells cv.rerenderQueue r2 ∨
        (r2 = row ∧ c2 ∈ l ∧ 0 ≤ c2 ∧ c2 < cv.columns ∧ rect.column ≤ c2 ∧
          c2 < rect.column + rect.width ∧ c2 ∉ om) := by
  induction l with
  | nil => intro cv r2 c2 h; exact Or.inl h
  | cons x xs ih =>
    intro cv r2 c2 h
    rw [List.foldl_cons] at h
    by_cases hg : (x < 0 ∨ cv.columns ≤ x ∨ x < rect.column ∨
        rect.column + rect.width ≤ x ∨ x ∈ om)
    · have hstep : TextObject.rerenderColStep style value rect om row cv x = cv := by
        unfold TextObject.rerenderColStep
        rw [if_pos hg]
      rw [hstep] at h
      rcases ih cv r2 c2 h with h2 | h2
      · exact Or.inl h2
      · exact Or.inr ⟨h2.1, List.mem_cons_of_mem x h2.2.1, h2.2.2⟩
    · have hstep : TextObject.rerenderColStep style value rect om row cv x =
          { cv with
              frameBuffer := writeCell cv.frameBuffer row x
                (style (charAtI value (x - rect.column))),
              rerenderQueue := RowSets.add cv.rerenderQueue row x } := by
        unfold TextObject.rerenderColStep
        rw [if_neg hg]
      rw [hstep] at h
      push_neg at hg
      rcases ih _ r2 c2 h with h2 | h2
      · rw [RowSets.cells_add] at h2
        by_cases h5 : r2 = row
        · rw [if_pos h5] at h2
          rcases Finset.mem_insert.mp h2 with h6 | h6
          · refine Or.inr ⟨h5, ?_, by omega, by omega, by omega, by omega, ?_⟩
            · rw [h6]; exact List.mem_cons_self x xs
            · rw [h6]; exact hg.2.2.2.2
          · exact Or.inl h6
        · rw [if_neg h5] at h2
          exact Or.inl h2
      · exact Or.inr ⟨h2.1, List.mem_cons_of_mem x h2.2.1, h2.2.2⟩

theorem text_rerender_fb_frame (o : TextObject) (cv : Canvas) (r2 c2 : Int)
    (h : (o.rerender cv).2.frameBuffer r2 c2 ≠ cv.frameBuffer r2 c2) :
    r2 = o.rectangle.row ∧ 0 ≤ r2 ∧ r2 < cv.rows ∧
      c2 ∈ RowSets.cells o.rerenderCells r2 ∧ 0 ≤ c2 ∧ c2 < cv.columns ∧
      o.rectangle.column ≤ c2 ∧ c2 < o.rectangle.column + o.rectangle.width ∧
      c2 ∉ RowSets.cells o.omitCells r2 := by
  unfold TextObject.rerender at h
  by_cases h1 : o.rectangle.row ∉ o.rerenderCells.dom
  · rw [if_pos h1] at h
    exact absurd rfl h
  · rw [if_neg h1] at h
    by_cases h2 : optSizeEq (o.omitCells.get o.rectangle.row) o.rectangle.width = true
    · rw [if_pos h2] at h
      exact absurd rfl h
    · rw [if_neg h2] at h
      by_cases h3 : (o.rectangle.row < 0 ∨ cv.rows ≤ o.rectangle.row)
      · rw [if_pos h3] at h
        exact absurd rfl h
      · rw [if_neg h3] at h
        obtain ⟨ha, hb, hc, hd, he, hf, hgg⟩ :=
          TextObject.rerenderColStep_fold_fb_frame o.style o.value o.rectangle
            (RowSets.cells o.omitCells o.rectangle.row) o.rectangle.row _ _ r2 c2 h
        subst ha
        refine ⟨rfl, by omega, by omega, ?_, hc, hd, he, hf, hgg⟩
        exact (mem_sortedCols.mp hb)

theorem text_rerender_queue_frame (o : TextObject) (cv : Canvas) (r2 c2 : Int)
    (h : c2 ∈ RowSets.cells (o.rerender cv).2.rerenderQueue r2) :
    c2 ∈ RowSets.cells cv.rerenderQueue r2 ∨
      (r2 = o.rectangle.row ∧ 0 ≤ r2 ∧ r2 < cv.rows ∧
        c2 ∈ RowSets.cells o.rerenderCells r2 ∧ 0 ≤ c2 ∧ c2 < cv.columns ∧
        o.rectangle.column ≤ c2 ∧ c2 < o.rectangle.column + o.rectangle.width ∧
        c2 ∉ RowSets.cells o.omitCells r2) := by
  unfold TextObject.rerender at h
  by_cases h1 : o.rectangle.row ∉ o.rerenderCells.dom
  · rw [if_pos h1] at h
    exact Or.inl h
  · rw [if_neg h1] at h
    by_cases h2 : optSizeEq (o.omitCells.get o.rectangle.row) o.rectangle.width = true
    · rw [if_pos h2] at h
      exact Or.inl h
    · rw [if_neg h2] at h
      by_cases h3 : (o.rectangle.row < 0 ∨ cv.rows ≤ o.rectangle.row)
      · rw [if_pos h3] at h
        exact Or.inl h
      · rw [if_neg h3] at h
        rcases TextObject.rerenderColStep_fold_queue_frame o.style o.value o.rectangle
            (RowSets.cells o.omitCells o.rectangle.row) o.rectangle.row _ _ r2 c2 h
          with h4 | h4
        · rw [RowSets.cells_ensure] at h4
          exact Or.inl h4
        · obtain ⟨ha, hb, hc⟩ := h4
          subst ha
          refine Or.inr ⟨rfl, by omega, by omega, ?_, hc⟩
          exact (mem_sortedCols.mp hb)

theorem text_rerender_queue_mono (o : TextObject) (cv : Canvas) (r2 c2 : Int)
    (h : c2 ∈ RowSets.cells cv.rerenderQueue r2) :
    c2 ∈ RowSets.cells (o.rerender cv).2.rerenderQueue r2 := by
  unfold TextObject.rerender
  by_cases h1 : o.rectangle.row ∉ o.rerenderCells.dom
  · rw [if_pos h1]
    exact h
  · rw [if_neg h1]
    by_cases h2 : optSizeEq (o.omitCells.get o.rectangle.row) o.rectangle.width = true
    · rw [if_pos h2]
      exact h
    · rw [if_neg h2]
      by_cases h3 : (o.rectangle.row < 0 ∨ cv.rows ≤ o.rectangle.row)
      · rw [if_pos h3]
        exact h
      · rw [if_neg h3]
        apply TextObject.rerenderColStep_fold_queue_mono
        rwa [RowSets.cells_ensure]

theorem BoxObject.colStep_fold_queue_mono (styled : String) (rectColumn cr row : Int)
    (om : Finset Int) (l : List Int) :
    ∀ (cv : Canvas) (r2 c2 : Int), c2 ∈ RowSets.cells cv.rerenderQueue r2 →
      c2 ∈ RowSets.cells
        (l.foldl (BoxObject.colStep styled rectColumn cr row om) cv).rerenderQueue r2 := by
  induction l with
  | nil => intro cv r2 c2 h; exact h
  | cons x xs ih =>
    intro cv r2 c2 h
    rw [List.foldl_cons]
    apply ih
    unfold BoxObject.colStep
    by_cases hg : (x ∈ om ∨ x < rectColumn ∨ cr ≤ x)
    · rw [if_pos hg]
      exact h
    · rw [if_neg hg]
      exact mem_cells_add_of_mem _ _ _ _ _ h

theorem BoxObject.colStep_fold_fb_frame (styled : String) (rectColumn cr row : Int)
    (om : Finset Int) (l : List Int) :
    ∀ (cv : Canvas) (r2 c2 : Int),
      (l.foldl (BoxObject.colStep styled rectColumn cr row om) cv).frameBuffer r2 c2 ≠
        cv.frameBuffer r2 c2 →
      r2 = row ∧ c2 ∈ l ∧ rectColumn ≤ c2 ∧ c2 < cr := by
  induction l with
  | nil => intro cv r2 c2 h; exact absurd rfl h
  | cons x xs ih =>
    intro cv r2 c2 h
    rw [List.foldl_cons] at h
    by_cases hg : (x ∈ om ∨ x < rectColumn ∨ cr ≤ x)
    · have hstep : BoxObject.colStep styled rectColumn cr row om cv x = cv := by
        unfold BoxObject.colStep
        rw [if_pos hg]
      rw [hstep] at h
      obtain ⟨ha, hb, hc⟩ := ih cv r2 c2 h
      exact ⟨ha, List.mem_cons_of_mem x hb, hc⟩
    · have hstep : BoxObject.colStep styled rectColumn cr row om cv x =
          { cv with
              frameBuffer := writeCell cv.frameBuffer row x styled,
              rerenderQueue := RowSets.add cv.rerenderQueue row x } := by
        unfold BoxObject.colStep
        rw [if_neg hg]
      rw [hstep] at h
      push_neg at hg
      rcases eq_or_ne
          ((xs.foldl (BoxObject.colStep styled rectColumn cr row om)
            { cv with
                frameBuffer := writeCell cv.frameBuffer row x styled,
                rerenderQueue := RowSets.add cv.rerenderQueue row x }).frameBuffer r2 c2)
          (writeCell cv.frameBuffer row x styled r2 c2)
        with h4 | h4
      · rw [h4] at h
        by_cases h5 : r2 = row ∧ c2 = x
        · refine ⟨h5.1, ?_, by omega, by omega⟩
          rw [h5.2]; exact List.mem_cons_self x xs
        · rw [writeCell_ne _ _ _ _ _ _ h5] at h
          exact absurd rfl h
      · obtain ⟨ha, hb, hc⟩ := ih _ r2 c2 h4
        exact ⟨ha, List.mem_cons_of_mem x hb, hc⟩

theorem BoxObject.colStep_fold_queue_frame (styled : String) (rectColumn cr row : Int)
    (om : Finset Int) (l : List Int) :
    ∀ (cv : Canvas) (r2 c2 : Int),
      c2 ∈ RowSets.cells
        (l.foldl (BoxObject.colStep styled rectColumn cr row om) cv).rerenderQueue r2 →
      c2 ∈ RowSets.cells cv.rerenderQueue r2 ∨
        (r2 = row ∧ c2 ∈ l ∧ rectColumn ≤ c2 ∧ c2 < cr) := by
  induction l with
  | nil => intro cv r2 c2 h; exact Or.inl h
  | cons x xs ih =>
    intro cv r2 c2 h
    rw [List.foldl_cons] at h
    by_cases hg : (x ∈ om ∨ x < rectColumn ∨ cr ≤ x)
    · have hstep : BoxObject.colStep styled rectColumn cr row om cv x = cv := by
        unfold BoxObject.colStep
        rw [if_pos hg]
      rw [hstep] at h
      rcases ih cv r2 c2 h with h2 | h2
      · exact Or.inl h2
      · exact Or.inr ⟨h2.1, List.mem_cons_of_mem x h2.2.1, h2.2.2⟩
    · have hstep : BoxObject.colStep styled rectColumn cr row om cv x =
          { cv with
              frameBuffer := writeCell cv.frameBuffer row x styled,
              rerenderQueue := RowSets.add cv.rerenderQueue row x } := by
        unfold BoxObject.colStep
        rw [if_neg hg]
      rw [hstep] at h
      push_neg at hg
      rcases ih _ r2 c2 h with h2 | h2
      · rw [RowSets.cells_add] at h2
        by_cases h5 : r2 = row
        · rw [if_pos h5] at h2
          rcases Finset.mem_insert.mp h2 with h6 | h6
          · refine Or.inr ⟨h5, ?_, by omega, by omega⟩
            rw [h6]; exact List.mem_cons_self x xs
          · exact Or.inl h6
        · rw [if_neg h5] at h2
          exact Or.inl h2
      · exact Or.inr ⟨h2.1, List.mem_cons_of_mem x h2.2.1, h2.2.2⟩

theorem BoxObject.rowStep_state (rr cr : Int) (st : BoxObject × Canvas) (row : Int) :
    (BoxObject.rowStep rr cr st row).1.rectangle = st.1.rectangle ∧
    (BoxObject.rowStep rr cr st row).1.rerenderCells.dom = st.1.rerenderCells.dom ∧
    (∀ r2, r2 ≠ row →
      RowSets.cells (BoxObject.rowStep rr cr st row).1.rerenderCells r2 =
        RowSets.cells st.1.rerenderCells r2) ∧
    (∀ r2, r2 ≠ row →
      RowSets.get (BoxObject.rowStep rr cr st row).1.omitCells r2 =
        RowSets.get st.1.omitCells r2) ∧
    (∀ r2, RowSets.cells (BoxObject.rowStep rr cr st row).1.rerenderCells r2 ⊆
      RowSets.cells st.1.rerenderCells r2) ∧
    (∀ r2, RowSets.cells (BoxObject.rowStep rr cr st row).1.omitCells r2 ⊆
      RowSets.cells st.1.omitCells r2) := by
  unfold BoxObject.rowStep
  by_cases h1 : row ∉ st.1.rerenderCells.dom
  · rw [if_pos h1]
    exact ⟨rfl, rfl, fun _ _ => rfl, fun _ _ => rfl, fun _ => Finset.Subset.refl _,
      fun _ => Finset.Subset.refl _⟩
  · rw [if_neg h1]
    by_cases h2 : rr ≤ row
    · rw [if_pos h2]
      exact ⟨rfl, rfl, fun _ _ => rfl, fun _ _ => rfl, fun _ => Finset.Subset.refl _,
        fun _ => Finset.Subset.refl _⟩
    · rw [if_neg h2]
      by_cases h3 : optSizeEq (st.1.omitCells.get row) st.1.rectangle.width = true
      · rw [if_pos h3]
        refine ⟨rfl, rfl, fun _ _ => rfl, fun r2 hr => ?_, fun _ => Finset.Subset.refl _,
          fun r2 => ?_⟩
        · exact RowSets.get_clearRow_ne _ _ _ hr
        · rw [RowSets.cells_clearRow]
          by_cases h5 : r2 = row
          · rw [if_pos h5]
            exact Finset.empty_subset _
          · rw [if_neg h5]
      · rw [if_neg h3]
        refine ⟨rfl, RowSets.dom_clearRow _ _, fun r2 hr => ?_, fun r2 hr => ?_,
          fun r2 => ?_, fun r2 => ?_⟩
        · rw [RowSets.cells_clearRow, if_neg hr]
        · exact RowSets.get_clearRow_ne _ _ _ hr
        · rw [RowSets.cells_clearRow]
          by_cases h5 : r2 = row
          · rw [if_pos h5]
            exact Finset.empty_subset _
          · rw [if_neg h5]
        · rw [RowSets.cells_clearRow]
          by_cases h5 : r2 = row
          · rw [if_pos h5]
            exact Finset.empty_subset _
          · rw [if_neg h5]

theorem BoxObject.rowStep_fb_frame (rr cr : Int) (st : BoxObject × Canvas) (row r2 c2 : Int)
    (h : (BoxObject.rowStep rr cr st row).2.frameBuffer r2 c2 ≠ st.2.frameBuffer r2 c2) :
    r2 = row ∧ row ∈ st.1.rerenderCells.dom ∧ row < rr ∧
      c2 ∈ RowSets.cells st.1.rerenderCells row ∧ st.1.rectangle.column ≤ c2 ∧ c2 < cr := by
  unfold BoxObject.rowStep at h
  by_cases h1 : row ∉ st.1.rerenderCells.dom
  · rw [if_pos h1] at h
    exact absurd rfl h
  · rw [if_neg h1] at h
    by_cases h2 : rr ≤ row
    · rw [if_pos h2] at h
      exact absurd rfl h
    · rw [if_neg h2] at h
      by_cases h3 : optSizeEq (st.1.omitCells.get row) st.1.rectangle.width = true
      · rw [if_pos h3] at h
        exact absurd rfl h
      · rw [if_neg h3] at h
        obtain ⟨ha, hb, hc, hd⟩ :=
          BoxObject.colStep_fold_fb_frame _ _ _ _ _ _ _ r2 c2 h
        subst ha
        exact ⟨rfl, not_not.mp h1, by omega,
          (mem_sortedCols.mp hb), hc, hd⟩

theorem BoxObject.rowStep_queue_frame (rr cr : Int) (st : BoxObject × Canvas) (row r2 c2 : Int)
    (h : c2 ∈ RowSets.cells (BoxObject.rowStep rr cr st row).2.rerenderQueue r2) :
    c2 ∈ RowSets.cells st.2.rerenderQueue r2 ∨
      (r2 = row ∧ row ∈ st.1.rerenderCells.dom ∧ row < rr ∧
        c2 ∈ RowSets.cells st.1.rerenderCells row ∧ st.1.rectangle.column ≤ c2 ∧ c2 < cr) := by
  unfold BoxObject.rowStep at h
  by_cases h1 : row ∉ st.1.rerenderCells.dom
  · rw [if_pos h1] at h
    exact Or.inl h
  · rw [if_neg h1] at h
    by_cases h2 : rr ≤ row
    · rw [if_pos h2] at h
      exact Or.inl h
    · rw [if_neg h2] at h
      by_cases h3 : optSizeEq (st.1.omitCells.get row) st.1.rectangle.width = true
      · rw [if_pos h3] at h
        exact Or.inl h
      · rw [if_neg h3] at h
        rcases BoxObject.colStep_fold_queue_frame _ _ _ _ _ _ _ r2 c2 h with h4 | h4
        · rw [RowSets.cells_ensure] at h4
          exact Or.inl h4
        · obtain ⟨ha, hb, hc⟩ := h4
          subst ha
          exact Or.inr ⟨rfl, not_not.mp h1, by omega,
            (mem_sortedCols.mp hb), hc⟩

theorem BoxObject.rowStep_queue_mono (rr cr : Int) (st : BoxObject × Canvas) (row r2 c2 : Int)
    (h : c2 ∈ RowSets.cells st.2.rerenderQueue r2) :
    c2 ∈ RowSets.cells (BoxObject.rowStep rr cr st row).2.rerenderQueue r2 := by
  unfold BoxObject.rowStep
  by_cases h1 : row ∉ st.1.rerenderCells.dom
  · rw [if_pos h1]
    exact h
  · rw [if_neg h1]
    by_cases h2 : rr ≤ row
    · rw [if_pos h2]
      exact h
    · rw [if_neg h2]
      by_cases h3 : optSizeEq (st.1.omitCells.get row) st.1.rectangle.width = true
      · rw [if_pos h3]
        exact h
      · rw [if_neg h3]
        apply BoxObject.colStep_fold_queue_mono
        rwa [RowSets.cells_ensure]

theorem BoxObject.fold_fb_frame (rr cr : Int) (l : List Int) :
    ∀ (st : BoxObject × Canvas) (r2 c2 : Int),
      ((l.foldl (BoxObject.rowStep rr cr) st).2.frameBuffer r2 c2 ≠
        st.2.frameBuffer r2 c2) →
      r2 ∈ l ∧ r2 ∈ st.1.rerenderCells.dom ∧ r2 < rr ∧
        c2 ∈ RowSets.cells st.1.rerenderCells r2 ∧ st.1.rectangle.column ≤ c2 ∧ c2 < cr := by
  induction l with
  | nil => intro st r2 c2 h; exact absurd rfl h
  | cons x xs ih =>
    intro st r2 c2 h
    rw [List.foldl_cons] at h
    obtain ⟨hrect, hdom, hne, hget, hsub, hsubom⟩ := BoxObject.rowStep_state rr cr st x
    rcases eq_or_ne ((xs.foldl (BoxObject.rowStep rr cr)
        (BoxObject.rowStep rr cr st x)).2.frameBuffer r2 c2)
        ((BoxObject.rowStep rr cr st x).2.frameBuffer r2 c2) with h4 | h4
    · rw [h4] at h
      obtain ⟨ha, hb, hc, hd, he, hf⟩ := BoxObject.rowStep_fb_frame rr cr st x r2 c2 h
      subst ha
      exact ⟨List.mem_cons_self r2 xs, hb, hc, hd, he, hf⟩
    · obtain ⟨ha, hb, hc, hd, he, hf⟩ := ih _ r2 c2 h4
      refine ⟨List.mem_cons_of_mem x ha, ?_, hc, ?_, ?_, hf⟩
      · rw [← hdom]
        exact hb
      · exact hsub r2 hd
      · rw [← hrect]
        exact he

theorem BoxObject.fold_queue_frame (rr cr : Int) (l : List Int) :
    ∀ (st : BoxObject × Canvas) (r2 c2 : Int),
      c2 ∈ RowSets.cells ((l.foldl (BoxObject.rowStep rr cr) st).2).rerenderQueue r2 →
      c2 ∈ RowSets.cells st.2.rerenderQueue r2 ∨
        (r2 ∈ l ∧ r2 ∈ st.1.rerenderCells.dom ∧ r2 < rr ∧
          c2 ∈ RowSets.cells st.1.rerenderCells r2 ∧ st.1.rectangle.column ≤ c2 ∧ c2 < cr) := by
  induction l with
  | nil => intro st r2 c2 h; exact Or.inl h
  | cons x xs ih =>
    intro st r2 c2 h
    rw [List.foldl_cons] at h
    obtain ⟨hrect, hdom, hne, hget, hsub, hsubom⟩ := BoxObject.rowStep_state rr cr st x
    rcases ih _ r2 c2 h with h2 | h2
    · rcases BoxObject.rowStep_queue_frame rr cr st x r2 c2 h2 with h3 | h3
      · exact Or.inl h3
      · obtain ⟨ha, hb, hc, hd, he, hf⟩ := h3
        subst ha
        exact Or.inr ⟨List.mem_cons_self r2 xs, hb, hc, hd, he, hf⟩
    · obtain ⟨ha, hb, hc, hd, he, hf⟩ := h2
      refine Or.inr ⟨List.mem_cons_of_mem x ha, ?_, hc, ?_, ?_, hf⟩
      · rw [← hdom]
        exact hb
      · exact hsub r2 hd
      · rw [← hrect]
        exact he

theorem BoxObject.fold_queue_mono (rr cr : Int) (l : List Int) :
    ∀ (st : BoxObject × Canvas) (r2 c2 : Int),
      c2 ∈ RowSets.cells st.2.rerenderQueue r2 →
      c2 ∈ RowSets.cells ((l.foldl (BoxObject.rowStep rr cr) st).2).rerenderQueue r2 := by
  induction l with
  | nil => intro st r2 c2 h; exact h
  | cons x xs ih =>
    intro st r2 c2 h
    rw [List.foldl_cons]
    exact ih _ r2 c2 (BoxObject.rowStep_queue_mono rr cr st x r2 c2 h)

theorem BoxObject.fold_shrink (rr cr : Int) (l : List Int) :
    ∀ (st : BoxObject × Canvas) (r2 : Int),
      RowSets.cells ((l.foldl (BoxObject.rowStep rr cr) st).1).rerenderCells r2 ⊆
          RowSets.cells st.1.rerenderCells r2 ∧
        RowSets.cells ((l.foldl (BoxObject.rowStep rr cr) st).1).omitCells r2 ⊆
          RowSets.cells st.1.omitCells r2 := by
  induction l with
  | nil => intro st r2; exact ⟨Finset.Subset.refl _, Finset.Subset.refl _⟩
  | cons x xs ih =>
    intro st r2
    rw [List.foldl_cons]
    obtain ⟨hrect, hdom, hne, hget, hsub, hsubom⟩ := BoxObject.rowStep_state rr cr st x
    obtain ⟨ha, hb⟩ := ih (BoxObject.rowStep rr cr st x) r2
    exact ⟨ha.trans (hsub r2), hb.trans (hsubom r2)⟩

theorem text_render_fb_frame (o : TextObject) (cv : Canvas) (r2 c2 : Int)
    (h : (o.render cv).2.frameBuffer r2 c2 ≠ cv.frameBuffer r2 c2) :
    r2 = o.rectangle.row ∧ 0 ≤ r2 ∧ r2 < cv.rows ∧ 0 ≤ c2 ∧ c2 < cv.columns ∧
      c2 ∉ RowSets.cells o.omitCells r2 ∧ o.rectangle.column ≤ c2 := by
  unfold TextObject.render at h
  by_cases h1 : (o.rectangle.row < 0 ∨ cv.rows ≤ o.rectangle.row)
  · rw [if_pos h1] at h
    exact absurd rfl h
  · rw [if_neg h1] at h
    by_cases h2 : optSizeEq (o.omitCells.get o.rectangle.row) o.rectangle.width = true
    · rw [if_pos h2] at h
      exact absurd rfl h
    · rw [if_neg h2] at h
      obtain ⟨ha, hb, hc, hd, he⟩ := TextObject.renderLoop_fb_frame o.style o.rectangle.row
        o.rectangle.column (RowSets.cells o.omitCells o.rectangle.row) o.value 0 _ r2 c2 h
      subst ha
      exact ⟨rfl, by omega, by omega, hb, hc, hd, by omega⟩

theorem text_render_queue_frame (o : TextObject) (cv : Canvas) (r2 c2 : Int)
    (h : c2 ∈ RowSets.cells (o.render cv).2.rerenderQueue r2) :
    c2 ∈ RowSets.cells cv.rerenderQueue r2 ∨
      (r2 = o.rectangle.row ∧ 0 ≤ r2 ∧ r2 < cv.rows ∧ 0 ≤ c2 ∧ c2 < cv.columns ∧
        c2 ∉ RowSets.cells o.omitCells r2) := by
  unfold TextObject.render at h
  by_cases h1 : (o.rectangle.row < 0 ∨ cv.rows ≤ o.rectangle.row)
  · rw [if_pos h1] at h
    exact Or.inl h
  · rw [if_neg h1] at h
    by_cases h2 : optSizeEq (o.omitCells.get o.rectangle.row) o.rectangle.width = true
    · rw [if_pos h2] at h
      exact Or.inl h
    · rw [if_neg h2] at h
      rcases TextObject.renderLoop_queue_frame o.style o.rectangle.row o.rectangle.column
          (RowSets.cells o.omitCells o.rectangle.row) o.value 0 _ r2 c2 h with h4 | h4
      · rw [RowSets.cells_ensure] at h4
        exact Or.inl h4
      · obtain ⟨ha, hb⟩ := h4
        subst ha
        exact Or.inr ⟨rfl, by omega, by omega, hb⟩

theorem text_render_queue_mono (o : TextObject) (cv : Canvas) (r2 c2 : Int)
    (h : c2 ∈ RowSets.cells cv.rerenderQueue r2) :
    c2 ∈ RowSets.cells (o.render cv).2.rerenderQueue r2 := by
  unfold TextObject.render
  by_cases h1 : (o.rectangle.row < 0 ∨ cv.rows ≤ o.rectangle.row)
  · rw [if_pos h1]
    exact h
  · rw [if_neg h1]
    by_cases h2 : optSizeEq (o.omitCells.get o.rectangle.row) o.rectangle.width = true
    · rw [if_pos h2]
      exact h
    · rw [if_neg h2]
      apply TextObject.renderLoop_queue_mono
      rwa [RowSets.cells_ensure]

theorem BoxObject.rowRange_le_rows (o : BoxObject) (cv : Canvas) :
    BoxObject.rowRange o cv ≤ cv.rows := by
  rcases hv : o.view with _ | v <;> simp only [BoxObject.rowRange, hv] <;> omega

theorem BoxObject.rowRange_le_bottom (o : BoxObject) (cv : Canvas) :
    BoxObject.rowRange o cv ≤ o.rectangle.row + o.rectangle.height := by
  rcases hv : o.view with _ | v <;> simp only [BoxObject.rowRange, hv] <;> omega

theorem BoxObject.rowRange_le_view (o : BoxObject) (cv : Canvas) (v : Rectangle)
    (hv : o.view = some v) : BoxObject.rowRange o cv ≤ v.row + v.height := by
  simp only [BoxObject.rowRange, hv]
  omega

theorem BoxObject.columnRange_le_columns (o : BoxObject) (cv : Canvas) :
    BoxObject.columnRange o cv ≤ cv.columns := by
  rcases hv : o.view with _ | v <;> simp only [BoxObject.columnRange, hv] <;> omega

theorem BoxObject.columnRange_le_right (o : BoxObject) (cv : Canvas) :
    BoxObject.columnRange o cv ≤ o.rectangle.column + o.rectangle.width := by
  rcases hv : o.view with _ | v <;> simp only [BoxObject.columnRange, hv] <;> omega

theorem BoxObject.columnRange_le_view (o : BoxObject) (cv : Canvas) (v : Rectangle)
    (hv : o.view = some v) : BoxObject.columnRange o cv ≤ v.column + v.width := by
  simp only [BoxObject.columnRange, hv]
  omega

theorem box_rerender_fb_frame (o : BoxObject) (cv : Canvas) (r2 c2 : Int)
    (h : (o.rerender cv).2.frameBuffer r2 c2 ≠ cv.frameBuffer r2 c2) :
    o.rectangle.row ≤ r2 ∧ r2 ∈ o.rerenderCells.dom ∧ r2 < BoxObject.rowRange o cv ∧
      c2 ∈ RowSets.cells o.rerenderCells r2 ∧ o.rectangle.column ≤ c2 ∧
      c2 < BoxObject.columnRange o cv := by
  unfold BoxObject.rerender at h
  obtain ⟨ha, hb, hc, hd, he, hf⟩ := BoxObject.fold_fb_frame _ _ _ _ r2 c2 h
  exact ⟨((mem_intRange _ _ r2).mp ha).1, hb, hc, hd, he, hf⟩

theorem box_rerender_queue_frame (o : BoxObject) (cv : Canvas) (r2 c2 : Int)
    (h : c2 ∈ RowSets.cells (o.rerender cv).2.rerenderQueue r2) :
    c2 ∈ RowSets.cells cv.rerenderQueue r2 ∨
      (o.rectangle.row ≤ r2 ∧ r2 ∈ o.rerenderCells.dom ∧ r2 < BoxObject.rowRange o cv ∧
        c2 ∈ RowSets.cells o.rerenderCells r2 ∧ o.rectangle.column ≤ c2 ∧
        c2 < BoxObject.columnRange o cv) := by
  unfold BoxObject.rerender at h
  rcases BoxObject.fold_queue_frame _ _ _ _ r2 c2 h with h2 | h2
  · exact Or.inl h2
  · obtain ⟨ha, hb, hc, hd, he, hf⟩ := h2
    exact Or.inr ⟨((mem_intRange _ _ r2).mp ha).1, hb, hc, hd, he, hf⟩

theorem box_rerender_queue_mono (o : BoxObject) (cv : Canvas) (r2 c2 : Int)
    (h : c2 ∈ RowSets.cells cv.rerenderQueue r2) :
    c2 ∈ RowSets.cells (o.rerender cv).2.rerenderQueue r2 := by
  unfold BoxObject.rerender
  exact BoxObject.fold_queue_mono _ _ _ _ r2 c2 h

theorem BoxObject.fold_clears (rr cr : Int) (l : List Int) :
    ∀ (st : BoxObject × Canvas) (row : Int), l.Nodup → row ∈ l →
      row ∈ st.1.rerenderCells.dom → row < rr →
      optSizeEq (st.1.omitCells.get row) st.1.rectangle.width = false →
      RowSets.cells ((l.foldl (BoxObject.rowStep rr cr) st).1).rerenderCells row = ∅ ∧
        RowSets.cells ((l.foldl (BoxObject.rowStep rr cr) st).1).omitCells row = ∅ := by
  induction l with
  | nil => intro st row _ hmem; cases hmem
  | cons x xs ih =>
    intro st row hnd hmem hdom hlt hsz
    rw [List.foldl_cons]
    rcases List.mem_cons.mp hmem with heq | hmem2
    · subst heq
      have hstep : RowSets.cells ((BoxObject.rowStep rr cr st row).1).rerenderCells row = ∅ ∧
          RowSets.cells ((BoxObject.rowStep rr cr st row).1).omitCells row = ∅ := by
        unfold BoxObject.rowStep
        rw [if_neg (not_not.mpr hdom)]
        rw [if_neg (by omega : ¬ rr ≤ row)]
        rw [if_neg (by simp [hsz])]
        constructor
        · rw [RowSets.cells_clearRow, if_pos rfl]
        · rw [RowSets.cells_clearRow, if_pos rfl]
      obtain ⟨h1, h2⟩ := BoxObject.fold_shrink rr cr xs (BoxObject.rowStep rr cr st row) row
      exact ⟨Finset.subset_empty.mp (hstep.1 ▸ h1), Finset.subset_empty.mp (hstep.2 ▸ h2)⟩
    · have hx : x ∉ xs := (List.nodup_cons.mp hnd).1
      have hxr : row ≠ x := fun hc => hx (hc ▸ hmem2)
      obtain ⟨hrect, hdm, hne, hget, _, _⟩ := BoxObject.rowStep_state rr cr st x
      refine ih _ row (List.nodup_cons.mp hnd).2 hmem2 ?_ hlt ?_
      · rw [hdm]
        exact hdom
      · rw [hget row hxr, hrect]
        exact hsz

/-- C5 counterexample: `c5box` has view rectangle (1,1,5,5) and queued cell
(0,0), which lies above and left of the view; `rerender` nevertheless writes
and queues it — the view's top and left edges do not clip. -/
theorem box_view_clip_counterexample :
    c5box.view = some ⟨1, 1, 5, 5⟩ ∧
    fitsInRectangle 0 0 ⟨1, 1, 5, 5⟩ = false ∧
    fitsInRectangle 0 0 c5box.rectangle = true ∧
    (c5box.rerender canvas10).2.frameBuffer 0 0 = some "#" ∧
    (0 : Int) ∈ RowSets.cells (c5box.rerender canvas10).2.rerenderQueue 0 := by
  decide

/-- C5 (amended): with a view rectangle set, box `rerender` clips only at the
view's bottom and right edges — no cell at or below row `view.row +
view.height` and no cell at or right of column `view.column + view.width` is
written or queued; the view's top and left edges do not clip, so a queued
cell above or left of the view but inside the rectangle is still painted. -/
theorem box_rerender_view_clips_bottom_right (o : BoxObject) (cv : Canvas) (v : Rectangle)
    (hv : o.view = some v) (r c : Int)
    (hout : v.row + v.height ≤ r ∨ v.column + v.width ≤ c) :
    (o.rerender cv).2.frameBuffer r c = cv.frameBuffer r c ∧
      (c ∈ RowSets.cells (o.rerender cv).2.rerenderQueue r ↔
        c ∈ RowSets.cells cv.rerenderQueue r) := by
  have hrv := BoxObject.rowRange_le_view o cv v hv
  have hcv := BoxObject.columnRange_le_view o cv v hv
  constructor
  · by_contra hne
    obtain ⟨_, _, hc, _, _, hf⟩ := box_rerender_fb_frame o cv r c hne
    omega
  · constructor
    · intro hmem
      rcases box_rerender_queue_frame o cv r c hmem with h | h
      · exact h
      · exfalso
        omega
    · exact fun hmem => box_rerender_queue_mono o cv r c hmem

theorem box_rerender_view_clips_bottom_right_witness :
    c5box.view = some ⟨1, 1, 5, 5⟩ ∧
    ((1 : Int) + 5 ≤ 6 ∨ (1 : Int) + 5 ≤ 0) ∧
    ((c5box.rerender canvas10).2.frameBuffer 6 0 = canvas10.frameBuffer 6 0 ∧
      ((0 : Int) ∈ RowSets.cells (c5box.rerender canvas10).2.rerenderQueue 6 ↔
        (0 : Int) ∈ RowSets.cells canvas10.rerenderQueue 6)) :=
  ⟨rfl, by decide,
    box_rerender_view_clips_bottom_right c5box canvas10 ⟨1, 1, 5, 5⟩ rfl 6 0 (by decide)⟩

/-- C6 counterexample: `c6box` occupies row -1, columns -3..1, with cell
(-1,-2) queued; box `rerender` writes the frame buffer and the rerender
queue at the negative position (-1,-2) instead of silently dropping it. -/
theorem box_rerender_out_of_bounds_write_counterexample :
    ((-1 : Int) < 0 ∧ (-2 : Int) < 0) ∧
    canvas10.frameBuffer (-1) (-2) = none ∧
    (c6box.rerender canvas10).2.frameBuffer (-1) (-2) = some "#" ∧
    (-2 : Int) ∈ RowSets.cells (c6box.rerender canvas10).2.rerenderQueue (-1) := by
  decide

/-- C6 (amended): text `render` and text `rerender` silently drop every write
outside `[0, rows) × [0, columns)` (neither the frame buffer nor the rerender
queue changes at such cells); box `rerender` drops writes at or beyond the
terminal size (`row ≥ rows` or `column ≥ columns`) but does not drop negative
rows or columns — a box whose rectangle extends into negative coordinates
writes frame-buffer and queue entries at negative positions. -/
theorem out_of_bounds_writes_dropped :
    (∀ (o : TextObject) (cv : Canvas) (r c : Int),
      (r < 0 ∨ cv.rows ≤ r ∨ c < 0 ∨ cv.columns ≤ c) →
      (o.render cv).2.frameBuffer r c = cv.frameBuffer r c ∧
        (c ∈ RowSets.cells (o.render cv).2.rerenderQueue r ↔
          c ∈ RowSets.cells cv.rerenderQueue r)) ∧
    (∀ (o : TextObject) (cv : Canvas) (r c : Int),
      (r < 0 ∨ cv.rows ≤ r ∨ c < 0 ∨ cv.columns ≤ c) →
      (o.rerender cv).2.frameBuffer r c = cv.frameBuffer r c ∧
        (c ∈ RowSets.cells (o.rerender cv).2.rerenderQueue r ↔
          c ∈ RowSets.cells cv.rerenderQueue r)) ∧
    (∀ (o : BoxObject) (cv : Canvas) (r c : Int),
      (cv.rows ≤ r ∨ cv.columns ≤ c) →
      (o.rerender cv).2.frameBuffer r c = cv.frameBuffer r c ∧
        (c ∈ RowSets.cells (o.rerender cv).2.rerenderQueue r ↔
          c ∈ RowSets.cells cv.rerenderQueue r)) := by
  refine ⟨?_, ?_, ?_⟩
  · intro o cv r c hout
    constructor
    · by_contra hne
      obtain ⟨_, hb, hc, hd, he, _⟩ := text_render_fb_frame o cv r c hne
      omega
    · constructor
      · intro hmem
        rcases text_render_queue_frame o cv r c hmem with h | h
        · exact h
        · exfalso
          obtain ⟨_, hb, hc, hd, he, _⟩ := h
          omega
      · exact fun hmem => text_render_queue_mono o cv r c hmem
  · intro o cv r c hout
    constructor
    · by_contra hne
      obtain ⟨_, hb, hc, _, hd, he, _⟩ := text_rerender_fb_frame o cv r c hne
      omega
    · constructor
      · intro hmem
        rcases text_rerender_queue_frame o cv r c hmem with h | h
        · exact h
        · exfalso
          obtain ⟨_, hb, hc, _, hd, he, _⟩ := h
          omega
      · exact fun hmem => text_rerender_queue_mono o cv r c hmem
  · intro o cv r c hout
    have h1 := BoxObject.rowRange_le_rows o cv
    have h2 := BoxObject.columnRange_le_columns o cv
    constructor
    · by_contra hne
      obtain ⟨_, _, hc, _, _, hf⟩ := box_rerender_fb_frame o cv r c hne
      omega
    · constructor
      · intro hmem
        rcases box_rerender_queue_frame o cv r c hmem with h | h
        · exact h
        · exfalso
          omega
      · exact fun hmem => box_rerender_queue_mono o cv r c hmem

theorem out_of_bounds_writes_dropped_witness :
    ((10 : Int) ≤ canvas10.rows ∨ canvas10.rows ≤ (10 : Int) ∨ (0:Int) < 0 ∨
      canvas10.columns ≤ 0) ∧
    ((c1obj.render canvas10).2.frameBuffer 10 0 = canvas10.frameBuffer 10 0 ∧
      ((0 : Int) ∈ RowSets.cells (c1obj.render canvas10).2.rerenderQueue 10 ↔
        (0 : Int) ∈ RowSets.cells canvas10.rerenderQueue 10)) ∧
    ((c8obj.rerender canvas10).2.frameBuffer (-3) 0 = canvas10.frameBuffer (-3) 0 ∧
      ((0 : Int) ∈ RowSets.cells (c8obj.rerender canvas10).2.rerenderQueue (-3) ↔
        (0 : Int) ∈ RowSets.cells canvas10.rerenderQueue (-3))) ∧
    ((c8box.rerender canvas10).2.frameBuffer 0 12 = canvas10.frameBuffer 0 12 ∧
      ((12 : Int) ∈ RowSets.cells (c8box.rerender canvas10).2.rerenderQueue 0 ↔
        (12 : Int) ∈ RowSets.cells canvas10.rerenderQueue 0)) :=
  ⟨by decide,
    out_of_bounds_writes_dropped.1 c1obj canvas10 10 0 (by decide),
    out_of_bounds_writes_dropped.2.1 c8obj canvas10 (-3) 0 (by decide),
    out_of_bounds_writes_dropped.2.2 c8box canvas10 0 12 (by decide)⟩

/-- C7 counterexample: `c7box` sits on the off-screen row -2 with the
in-rectangle cell (-2,1) queued; `rerender` modifies the frame buffer at
(-2,1), a cell outside the screen bounds, contradicting the claim that only
in-bounds cells are modified. -/
theorem box_rerender_modifies_offscreen_counterexample :
    ((-2 : Int) < 0) ∧
    canvas10.frameBuffer (-2) 1 = none ∧
    (c7box.rerender canvas10).2.frameBuffer (-2) 1 = some "x" := by
  decide

/-- C7 (amended): a rerender call modifies only frame-buffer cells that are
queued in the object's own `rerenderCells` for that row and lie inside the
object's rectangle; for text objects the modified cell is additionally within
screen bounds on all sides, while for box objects it is only guaranteed to be
below the terminal's upper bounds (`row < rows`, `column < columns`) — its
row or column may be negative.  Every other frame-buffer cell is unchanged. -/
theorem rerender_modifies_only_queued_rectangle_cells (o : TextObject) (cv : Canvas)
    (hh : o.rectangle.height = 1) (bo : BoxObject) (bcv : Canvas) :
    (∀ r c : Int, (o.rerender cv).2.frameBuffer r c ≠ cv.frameBuffer r c →
      c ∈ RowSets.cells o.rerenderCells r ∧ r ∈ o.rerenderCells.dom ∧
        fitsInRectangle c r o.rectangle = true ∧
        0 ≤ r ∧ r < cv.rows ∧ 0 ≤ c ∧ c < cv.columns) ∧
    (∀ r c : Int, (bo.rerender bcv).2.frameBuffer r c ≠ bcv.frameBuffer r c →
      c ∈ RowSets.cells bo.rerenderCells r ∧ r ∈ bo.rerenderCells.dom ∧
        fitsInRectangle c r bo.rectangle = true ∧ r < bcv.rows ∧ c < bcv.columns) := by
  constructor
  · intro r c hne
    obtain ⟨ha, hb, hc, hd, he, hf, hg2, hh2, _⟩ := text_rerender_fb_frame o cv r c hne
    have hdom : r ∈ o.rerenderCells.dom := by
      by_contra hcon
      unfold RowSets.cells at hd
      rw [if_neg hcon] at hd
      exact absurd hd (Finset.not_mem_empty c)
    refine ⟨hd, hdom, ?_, by omega, by omega, by omega, by omega⟩
    simp only [fitsInRectangle, Bool.and_eq_true, decide_eq_true_eq]
    omega
  · intro r c hne
    have h1 := BoxObject.rowRange_le_rows bo bcv
    have h2 := BoxObject.columnRange_le_columns bo bcv
    have h3 := BoxObject.rowRange_le_bottom bo bcv
    have h4 := BoxObject.columnRange_le_right bo bcv
    obtain ⟨ha, hb, hc, hd, he, hf⟩ := box_rerender_fb_frame bo bcv r c hne
    refine ⟨hd, hb, ?_, by omega, by omega⟩
    simp only [fitsInRectangle, Bool.and_eq_true, decide_eq_true_eq]
    omega

theorem rerender_modifies_only_queued_rectangle_cells_witness :
    c8obj.rectangle.height = 1 ∧
    ((c8obj.rerender canvas10).2.frameBuffer 0 0 ≠ canvas10.frameBuffer 0 0 ∧
      ((0 : Int) ∈ RowSets.cells c8obj.rerenderCells 0 ∧ (0 : Int) ∈ c8obj.rerenderCells.dom ∧
        fitsInRectangle 0 0 c8obj.rectangle = true ∧
        (0 : Int) ≤ 0 ∧ (0 : Int) < canvas10.rows ∧ (0 : Int) ≤ 0 ∧
        (0 : Int) < canvas10.columns)) ∧
    ((c8box.rerender canvas10).2.frameBuffer 1 0 ≠ canvas10.frameBuffer 1 0 ∧
      ((0 : Int) ∈ RowSets.cells c8box.rerenderCells 1 ∧ (1 : Int) ∈ c8box.rerenderCells.dom ∧
        fitsInRectangle 0 1 c8box.rectangle = true ∧ (1 : Int) < canvas10.rows ∧
        (0 : Int) < canvas10.columns)) :=
  ⟨rfl,
    ⟨by decide,
      (rerender_modifies_only_queued_rectangle_cells c8obj canvas10 rfl c8box canvas10).1 0 0
        (by decide)⟩,
    ⟨by decide,
      (rerender_modifies_only_queued_rectangle_cells c8obj canvas10 rfl c8box canvas10).2 1 0
        (by decide)⟩⟩

/-- C8: when rerender actually processes a row — the row has a queued set,
the fully-omitted fast path does not fire, and (for text) the row is on
screen, (for a box) the row is inside the painted range — both the row's
`rerenderCells` set and its omit set are cleared before rerender returns, so
no previously omitted cell remains in the object's own rerender queue. -/
theorem rerender_clears_processed_row (tob : TextObject) (tcv : Canvas)
    (h1 : tob.rectangle.row ∈ tob.rerenderCells.dom)
    (h2 : optSizeEq (tob.omitCells.get tob.rectangle.row) tob.rectangle.width = false)
    (h3 : 0 ≤ tob.rectangle.row) (h4 : tob.rectangle.row < tcv.rows)
    (bo : BoxObject) (bcv : Canvas) (brow : Int)
    (h5 : brow ∈ bo.rerenderCells.dom)
    (h6 : bo.rectangle.row ≤ brow)
    (h7 : brow < BoxObject.rowRange bo bcv)
    (h8 : optSizeEq (bo.omitCells.get brow) bo.rectangle.width = false) :
    (RowSets.cells (tob.rerender tcv).1.rerenderCells tob.rectangle.row = ∅ ∧
      RowSets.cells (tob.rerender tcv).1.omitCells tob.rectangle.row = ∅) ∧
    (RowSets.cells (bo.rerender bcv).1.rerenderCells brow = ∅ ∧
      RowSets.cells (bo.rerender bcv).1.omitCells brow = ∅) := by
  constructor
  · unfold TextObject.rerender
    rw [if_neg (not_not.mpr h1)]
    rw [if_neg (by simp [h2])]
    rw [if_neg (by omega : ¬(tob.rectangle.row < 0 ∨ tcv.rows ≤ tob.rectangle.row))]
    constructor
    · rw [RowSets.cells_clearRow, if_pos rfl]
    · rw [RowSets.cells_clearRow, if_pos rfl]
  · unfold BoxObject.rerender
    exact BoxObject.fold_clears _ _ _ _ brow (intRange_nodup _ _)
      ((mem_intRange _ _ brow).mpr ⟨h6, RowSets.lt_len _ _ h5⟩) h5 h7 h8

theorem rerender_clears_processed_row_witness :
    (c8obj.rectangle.row ∈ c8obj.rerenderCells.dom ∧
      optSizeEq (c8obj.omitCells.get c8obj.rectangle.row) c8obj.rectangle.width = false ∧
      (1 : Int) ∈ c8box.rerenderCells.dom ∧
      optSizeEq (c8box.omitCells.get 1) c8box.rectangle.width = false) ∧
    ((RowSets.cells (c8obj.rerender canvas10).1.rerenderCells 0 = ∅ ∧
      RowSets.cells (c8obj.rerender canvas10).1.omitCells 0 = ∅) ∧
     (RowSets.cells (c8box.rerender canvas10).1.rerenderCells 1 = ∅ ∧
      RowSets.cells (c8box.rerender canvas10).1.omitCells 1 = ∅)) :=
  ⟨⟨by decide, by decide, by decide, by decide⟩,
    rerender_clears_processed_row c8obj canvas10 (by decide) (by decide) (by decide)
      (by decide) c8box canvas10 1 (by decide) (by decide) (by decide) (by decide)⟩

theorem createComponentList_sorted (l : List Component) (c : Component) :
    List.Sorted (fun a b : Component => a.drawPriority ≤ b.drawPriority)
      (createComponentList l c) := by
  unfold createComponentList
  apply List.Pairwise.imp (fun hab => of_decide_eq_true hab)
  exact List.sorted_mergeSort
    (fun a b c2 hab hbc => by
      simp only [decide_eq_true_eq] at hab hbc ⊢
      omega)
    (fun a b => by
      simp only [Bool.or_eq_true, decide_eq_true_eq]
      omega)
    (l ++ [c])

/-- C9: the instance's component list is always sorted in non-decreasing
`drawPriority` order: `createComponent` re-sorts the pushed list ascending by
`drawPriority` (its comparator subtracts priorities), `removeComponent` only
filters and so preserves sortedness, and consequently after any sequence of
create/remove operations starting from the fresh instance the list is sorted,
with lower-priority components preceding higher-priority ones. -/
theorem components_sorted_by_drawPriority :
    (∀ (l : List Component) (c : Component),
      List.Sorted (fun a b : Component => a.drawPriority ≤ b.drawPriority)
        (createComponentList l c)) ∧
    (∀ (l : List Component) (c : Component),
      List.Sorted (fun a b : Component => a.drawPriority ≤ b.drawPriority) l →
      List.Sorted (fun a b : Component => a.drawPriority ≤ b.drawPriority)
        (removeComponentList l c)) ∧
    (∀ ops : List TuiOp,
      List.Sorted (fun a b : Component => a.drawPriority ≤ b.drawPriority) (applyOps ops)) := by
  refine ⟨createComponentList_sorted, ?_, ?_⟩
  · intro l c hl
    exact List.Pairwise.sublist (List.filter_sublist l) hl
  · intro ops
    unfold applyOps
    have key : ∀ (l : List Component),
        List.Sorted (fun a b : Component => a.drawPriority ≤ b.drawPriority) l →
        List.Sorted (fun a b : Component => a.drawPriority ≤ b.drawPriority)
          (ops.foldl applyOp l) := by
      induction ops with
      | nil => intro l hl; exact hl
      | cons op rest ih =>
        intro l hl
        rw [List.foldl_cons]
        apply ih
        cases op with
        | create c => exact createComponentList_sorted l c
        | remove c => exact List.Pairwise.sublist (List.filter_sublist l) hl
    exact key [] List.sorted_nil

theorem components_sorted_by_drawPriority_witness :
    List.Sorted (fun a b : Component => a.drawPriority ≤ b.drawPriority)
      [Component.mk 0 1, Component.mk 1 2] ∧
    List.Sorted (fun a b : Component => a.drawPriority ≤ b.drawPriority)
      (removeComponentList [Component.mk 0 1, Component.mk 1 2] (Component.mk 0 1)) ∧
    List.Sorted (fun a b : Component => a.drawPriority ≤ b.drawPriority)
      (createComponentList [Component.mk 5 7] (Component.mk 6 3)) ∧
    List.Sorted (fun a b : Component => a.drawPriority ≤ b.drawPriority)
      (applyOps [TuiOp.create (Component.mk 0 2), TuiOp.create (Component.mk 1 1)]) :=
  ⟨by decide,
    components_sorted_by_drawPriority.2.1 _ _ (by decide),
    components_sorted_by_drawPriority.1 _ _,
    components_sorted_by_drawPriority.2.2 _⟩

/-- C10: the module-global component id counter hands out strictly increasing
ids: across any run of `createComponent` calls, each call's id is strictly
greater than every id handed out before it, so no two components ever share
an id. -/
theorem component_ids_strictly_increasing (s n : Nat) :
    List.Pairwise (· < ·) (assignedIds s n) ∧ (assignedIds s n).Nodup := by
  have key : ∀ (n s : Nat), List.Pairwise (· < ·) (assignedIds s n) ∧
      (∀ x ∈ assignedIds s n, s ≤ x) := by
    intro n
    induction n with
    | zero =>
      intro s
      exact ⟨List.Pairwise.nil, by intro x hx; cases hx⟩
    | succ n ih =>
      intro s
      simp only [assignedIds, createComponentId]
      obtain ⟨h1, h2⟩ := ih (s + 1)
      refine ⟨List.Pairwise.cons ?_ h1, ?_⟩
      · intro x hx
        have := h2 x hx
        omega
      · intro x hx
        rcases List.mem_cons.mp hx with h | h
        · omega
        · have := h2 x h
          omega
  obtain ⟨h1, _⟩ := key n s
  exact ⟨h1, h1.imp (fun h => Nat.ne_of_lt h)⟩
